import Mathlib

/-!
Shallow embedding of the go-proxyproto PROXY-protocol library (parser/writer for
protocol versions 1 and 2, TLV vector codecs, SSL TLV decoders, and the wrapping
connection's address logic), together with theorems settling the specification
claims C1..C10.

Nat strings are modelled as `List Nat` with every element below 256; a
`bufio.Reader` over a fully buffered in-memory stream is a byte list plus a read
position.  Go's sentinel errors are an inductive type.  Functions are translated
from the repository sources (v1.go, the v2 parser/formatter, the Read entry
point, policy.go's TLV code, tlvparse/ssl.go, and the wrapping Conn); the few
identifiers whose defining file is absent from the source tree (the
version/command and address-family constants) are modelled from the
specification and marked as such.
-/

namespace Proxyproto

/-- Nat string denoted by a list of ASCII characters.  Go bytes are kept as
plain natural numbers (< 256 by construction). -/
def chs (l : List Char) : List Nat := l.map Char.toNat

/-- Model of Go's sentinel error values (and the ad-hoc `errors.New`/`fmt.Errorf`
errors of the v2 TLV field parser, collapsed to one constructor each). -/
inductive GoErr where
  | noProxyProtocol
  | cantReadProtocolVersionAndCommand
  | cantReadAddressFamilyAndProtocol
  | cantReadLength
  | unsupportedProtocolVersionAndCommand
  | unsupportedAddressFamilyAndProtocol
  | invalidLength
  | invalidAddress
  | invalidPortNumber
  | atoiSyntax
  | atoiRange
  | truncatedTLV
  | malformedTLV
  | incompatibleTLV
  | tlvFieldTooLong
  | tlvReadError
  | sslTooShort
deriving DecidableEq, Repr

/-- Model of a `bufio.Reader` over a fully buffered in-memory byte stream:
the underlying bytes together with the current read position. -/
structure Reader where
  data : List Nat
  pos : Nat
deriving DecidableEq, Repr

namespace Reader

/-- The bytes not yet consumed. -/
def rest (r : Reader) : List Nat := r.data.drop r.pos

/-- Number of bytes not yet consumed. -/
def avail (r : Reader) : Nat := r.data.length - r.pos

/-- Model of `bufio.Reader.Peek n`: the next `n` bytes without advancing, or
`none` when fewer than `n` bytes remain. -/
def peek (r : Reader) (n : Nat) : Option (List Nat) :=
  if r.pos + n ≤ r.data.length then some (r.rest.take n) else none

/-- Model of `bufio.Reader.ReadByte`. -/
def readByte (r : Reader) : Option (Nat × Reader) :=
  match r.rest with
  | [] => none
  | b :: _ => some (b, ⟨r.data, r.pos + 1⟩)

/-- Consume exactly `n` bytes (the semantics of `binary.Read`/`io.ReadFull`
over a fully buffered stream): `none` when fewer than `n` bytes remain. -/
def readN (r : Reader) (n : Nat) : Option (List Nat × Reader) :=
  if r.pos + n ≤ r.data.length then some (r.rest.take n, ⟨r.data, r.pos + n⟩) else none

/-- Model of `bufio.Reader.Discard n` over a fully buffered stream: skips
`min n avail` bytes. -/
def discard (r : Reader) (n : Nat) : Reader :=
  ⟨r.data, min (r.pos + n) r.data.length⟩

/-- Model of `bufio.Reader.ReadString delim` over a fully buffered stream:
consumes up to and including the first occurrence of `b`, or the whole rest of
the stream when `b` does not occur (v1.go ignores the accompanying error and
only inspects the returned prefix). -/
def readUntil (r : Reader) (b : Nat) : List Nat × Reader :=
  let k := min (r.rest.indexOf b + 1) r.rest.length
  (r.rest.take k, ⟨r.data, r.pos + k⟩)

/-- Model of `bufio.Reader.Read buf` over a fully buffered stream for a buffer
of size `n`: returns the filled prefix (at most `n` bytes, as many as remain)
and the count; a read of size > 0 at end of stream reports an error. -/
def readUpTo (r : Reader) (n : Nat) : List Nat × Nat × Reader × Option GoErr :=
  if n = 0 then ([], 0, r, none)
  else if r.avail = 0 then ([], 0, r, some GoErr.tlvReadError)
  else
    let k := min n r.avail
    (r.rest.take k, k, ⟨r.data, r.pos + k⟩, none)

end Reader

/-- Big-endian 16-bit value of two bytes. -/
def be16 (hi lo : Nat) : Nat := hi * 256 + lo

/-- Big-endian two-byte encoding of a 16-bit value (`binary.BigEndian.PutUint16`). -/
def putUint16 (n : Nat) : List Nat := [n / 256 % 256, n % 256]

/-- Go conversion `uint16(v)` of a (possibly negative) integer: the value modulo
2^16. -/
def uint16OfInt (v : Int) : Nat := (v % 65536).toNat

/- ----------------------------------------------------------------
   Protocol constants.

   The files defining `ProtocolVersionAndCommand`, `AddressFamilyAndProtocol`,
   their constants and the `supportedCommand` / `supportedTransportProtocol`
   maps are not present in the source tree (only tests and callers are), so the
   values below are modelled from the spec: byte 12 of a v2 header has high
   nibble 0x2 and low nibble 0 = LOCAL / 1 = PROXY; the canonical transport
   values are UNSPEC=0x00, TCPv4=0x11, UDPv4=0x12, TCPv6=0x21, UDPv6=0x22,
   UnixStream=0x31, UnixDatagram=0x32.
   ---------------------------------------------------------------- -/

/-- Modelled from the spec: v2 command byte LOCAL (version nibble 2, command 0). -/
def LOCAL : Nat := 0x20

/-- Modelled from the spec: v2 command byte PROXY (version nibble 2, command 1). -/
def PROXY : Nat := 0x21

/-- Modelled from the spec: transport protocol constants. -/
def UNSPEC : Nat := 0x00

def TCPv4 : Nat := 0x11

def UDPv4 : Nat := 0x12

def TCPv6 : Nat := 0x21

def UDPv6 : Nat := 0x22

def UnixStream : Nat := 0x31

def UnixDatagram : Nat := 0x32

/-- Modelled from the spec: the set of supported v2 command bytes
(`supportedCommand`). -/
def supportedCommand (b : Nat) : Bool := b == LOCAL || b == PROXY

/-- Modelled from the spec: `ProtocolVersionAndCommand.IsLocal`. -/
def isLocalCmd (b : Nat) : Bool := b == LOCAL

/-- Modelled from the spec: the set of recognized address-family/transport
bytes (`supportedTransportProtocol`); §6.1 lists
0x00, 0x11, 0x12, 0x21, 0x22, 0x31, 0x32. -/
def supportedTransportProtocol (b : Nat) : Bool :=
  b == UNSPEC || b == TCPv4 || b == UDPv4 || b == TCPv6 || b == UDPv6 ||
    b == UnixStream || b == UnixDatagram

/-- Modelled from the spec: `AddressFamilyAndProtocol.IsIPv4` — high nibble 1. -/
def isIPv4Family (b : Nat) : Bool := b / 16 == 1

/-- Modelled from the spec: `AddressFamilyAndProtocol.IsIPv6` — high nibble 2. -/
def isIPv6Family (b : Nat) : Bool := b / 16 == 2

/-- Modelled from the spec: `AddressFamilyAndProtocol.IsUnix` — high nibble 3. -/
def isUnixFamily (b : Nat) : Bool := b / 16 == 3

/- ----------------------------------------------------------------
   Model of the Go standard library's net.IP values and their textual codec
   (net.ParseIP / net.IP.String), which v1.go delegates to.
   ---------------------------------------------------------------- -/

/-- Model of Go `net.IP`: a byte slice; `[]` plays the role of Go's nil IP. -/
abbrev IP := List Nat

/-- The 12-byte prefix of an IPv4-in-IPv6 mapped address. -/
def v4InV6Prefix : List Nat := [0, 0, 0, 0, 0, 0, 0, 0, 0, 0, 0xff, 0xff]

/-- Model of Go `net.IP.To4`. -/
def to4 (ip : IP) : IP :=
  if ip.length = 4 then ip
  else if ip.length = 16 ∧ ip.take 12 = v4InV6Prefix then ip.drop 12
  else []

/-- Model of Go `net.IP.To16`. -/
def to16 (ip : IP) : IP :=
  if ip.length = 4 then v4InV6Prefix ++ ip
  else if ip.length = 16 then ip
  else []

/-- Model of Go `net.IP.Equal`: byte equality up to the 4-byte/16-byte mapped
representation of an IPv4 address. -/
def ipEqual (ip x : IP) : Bool :=
  if ip.length = x.length then ip == x
  else if ip.length = 4 ∧ x.length = 16 then
    x.take 12 == v4InV6Prefix && ip == x.drop 12
  else if ip.length = 16 ∧ x.length = 4 then
    ip.take 12 == v4InV6Prefix && ip.drop 12 == x
  else false

/-- Decimal digit predicate on ASCII bytes. -/
def isDigit (b : Nat) : Bool := 48 ≤ b && b ≤ 57

/-- Hexadecimal digit value of an ASCII byte, if any. -/
def hexVal (b : Nat) : Option Nat :=
  if 48 ≤ b ∧ b ≤ 57 then some (b - 48)
  else if 97 ≤ b ∧ b ≤ 102 then some (b - 97 + 10)
  else if 65 ≤ b ∧ b ≤ 70 then some (b - 65 + 10)
  else none

/-- Lowercase hex digit byte of a value < 16 (Go's `hexDigit` table). -/
def hexDigitByte (d : Nat) : Nat := if d < 10 then 48 + d else 97 + (d - 10)

/-- Decimal representation of a natural number, most significant digit first
(model of Go `strconv.Itoa` on nonnegative values, and of `uitoa`). -/
def itoa (n : Nat) : List Nat :=
  if n = 0 then [48] else (Nat.digits 10 n).reverse.map (fun d => 48 + d)

/-- Lowercase hex representation without leading zeros (Go's `appendHex`);
prints `0` for zero. -/
def hexStr (n : Nat) : List Nat :=
  if n = 0 then [48] else (Nat.digits 16 n).reverse.map hexDigitByte

/-- Model of Go `strconv.Atoi`: optional sign, one or more decimal digits,
64-bit range check.  Syntax errors and range errors are distinct error
values (neither equals any proxyproto sentinel error). -/
def atoi (s : List Nat) : Except GoErr Int :=
  let signed : Bool × List Nat :=
    match s with
    | 43 :: t => (false, t)
    | 45 :: t => (true, t)
    | t => (false, t)
  let neg := signed.1
  let ds := signed.2
  if ds = [] then .error .atoiSyntax
  else if ds.all isDigit then
    let v : Nat := ds.foldl (fun acc d => acc * 10 + (d - 48)) 0
    let i : Int := if neg then -(v : Int) else (v : Int)
    if i < -(2 ^ 63) ∨ 2 ^ 63 ≤ i then .error .atoiRange else .ok i
  else .error .atoiSyntax

/-- One field of a dotted-decimal IPv4 literal under Go 1.17+ rules: one to
three decimal digits, no leading zero, value at most 255. -/
def v4FieldVal (t : List Nat) : Option Nat :=
  if t ≠ [] ∧ t.all isDigit ∧ t.length ≤ 3 ∧ (t.length > 1 → t.head? ≠ some 48) then
    let v := t.foldl (fun acc d => acc * 10 + (d - 48)) 0
    if v ≤ 255 then some v else none
  else none

/-- Model of the Go stdlib's IPv4 literal parser (netip.parseIPv4, Go 1.17+):
exactly four dot-separated decimal fields, each 0..255 with no leading zeros.
Returns the four address bytes. -/
def parseIPv4Fields (s : List Nat) : Option (List Nat) :=
  let fields := s.splitOn 46
  if h : fields.length = 4 then
    match v4FieldVal (fields.get ⟨0, by omega⟩), v4FieldVal (fields.get ⟨1, by omega⟩),
      v4FieldVal (fields.get ⟨2, by omega⟩), v4FieldVal (fields.get ⟨3, by omega⟩) with
    | some a, some b, some c, some d => some [a, b, c, d]
    | _, _, _, _ => none
  else none

/-- Scan a run of hex digits (the inner loop of the stdlib's IPv6 parser):
returns the accumulated value, the number of digits consumed and the remaining
bytes; `none` models the error on a field value ≥ 2^16. -/
def scanHex : List Nat → Nat → Nat → Option (Nat × Nat × List Nat)
  | [], acc, off => some (acc, off, [])
  | c :: t, acc, off =>
    match hexVal c with
    | none => some (acc, off, c :: t)
    | some d =>
      let acc2 := acc * 16 + d
      if acc2 > 65535 then none else scanHex t acc2 (off + 1)

/-- Completion step of the stdlib IPv6 parser: trailing-garbage check and
expansion of the `::` ellipsis. -/
def finishIPv6 (s : List Nat) (ip : List Nat) (ellipsis : Option Nat) :
    Option (List Nat) :=
  if s ≠ [] then none
  else if ip.length < 16 then
    match ellipsis with
    | none => none
    | some e => some (ip.take e ++ List.replicate (16 - ip.length) 0 ++ ip.drop e)
  else
    match ellipsis with
    | some _ => none
    | none => some ip

/-- Main loop of the stdlib IPv6 parser (netip.parseIPv6): `ip` holds the bytes
decoded so far (`i` in the Go code is `ip.length`), `ellipsis` the byte index
of a `::` if one was seen. -/
def parseIPv6Loop (s : List Nat) (ip : List Nat) (ellipsis : Option Nat) :
    Option (List Nat) :=
  if _h16 : 16 ≤ ip.length then finishIPv6 s ip ellipsis
  else
    match scanHex s 0 0 with
    | none => none
    | some (acc, off, s1) =>
      if off = 0 then none
      else if s1.head? = some 46 then
        -- embedded IPv4 tail: must replace the final two groups
        if ellipsis = none ∧ ip.length ≠ 12 then none
        else if ip.length + 4 > 16 then none
        else
          match parseIPv4Fields s with
          | none => none
          | some quad => finishIPv6 [] (ip ++ quad) ellipsis
      else
        let ip2 := ip ++ [acc / 256, acc % 256]
        match s1 with
        | [] => finishIPv6 [] ip2 ellipsis
        | c :: s2 =>
          if c ≠ 58 then none
          else if s2 = [] then none
          else
            match s2 with
            | 58 :: s3 =>
              if ellipsis.isSome then none
              else if s3 = [] then finishIPv6 [] ip2 (some ip2.length)
              else parseIPv6Loop s3 ip2 (some ip2.length)
            | _ => parseIPv6Loop s2 ip2 ellipsis
  termination_by 16 - ip.length
  decreasing_by
  · simp only [List.length_append, List.length_cons, List.length_nil]
    omega
  · simp only [List.length_append, List.length_cons, List.length_nil]
    omega

/-- Model of the stdlib IPv6 literal parser: handles a leading `::`, then runs
the main loop. -/
def parseIPv6Lit (s : List Nat) : Option (List Nat) :=
  match s with
  | 58 :: 58 :: t =>
    if t = [] then some (List.replicate 16 0)
    else parseIPv6Loop t [] (some 0)
  | _ => parseIPv6Loop s [] none

/-- Model of Go `net.ParseIP`: dispatches on the first `.` or `:` found; a
dotted-quad parse yields the 16-byte IPv4-in-IPv6 mapped form.  Returns `[]`
(Go nil) on failure. -/
def parseIP (s : List Nat) : IP :=
  match parseIPDispatch s with
  | some true =>
    match parseIPv4Fields s with
    | some quad => v4InV6Prefix ++ quad
    | none => []
  | some false =>
    match parseIPv6Lit s with
    | some ip => ip
    | none => []
  | none => []
where
  /-- First `.` (true) or `:` (false) occurring in the string. -/
  parseIPDispatch : List Nat → Option Bool
    | [] => none
    | 46 :: _ => some true
    | 58 :: _ => some false
    | _ :: t => parseIPDispatch t

/-- Scan forward from byte index `i` over zero 16-bit groups (the inner loop of
the zero-run search in `net.IP.String`). -/
def zeroScan (p : List Nat) (i : Nat) : Nat :=
  if h : i < 16 then
    if p.getD i 0 = 0 ∧ p.getD (i + 1) 0 = 0 then zeroScan p (i + 2) else i
  else i
  termination_by 16 - i

/-- Outer loop of the zero-run search in `net.IP.String`: finds the leftmost
strictly-longest run of zero groups; `-1` is the Go sentinel for "none". -/
def zeroRunLoop (p : List Nat) (i : Nat) (e0 e1 : Int) : Int × Int :=
  if h : i < 16 then
    let j := zeroScan p i
    if hj : j > i ∧ (j : Int) - (i : Int) > e1 - e0 then
      -- e0, e1 = i, j; i = j; then the for loop increments i by 2
      zeroRunLoop p (j + 2) i j
    else zeroRunLoop p (i + 2) e0 e1
  else (e0, e1)
  termination_by 16 - i
  decreasing_by
  · omega
  · omega

/-- Zero-run selection of `net.IP.String`: runs of a single group are not
compressed (`e1-e0 <= 2` is reset to the sentinel). -/
def zeroRun (p : List Nat) : Int × Int :=
  let r := zeroRunLoop p 0 (-1) (-1)
  if r.2 - r.1 ≤ 2 then (-1, -1) else r

/-- The eight 16-bit groups of a 16-byte IPv6 address. -/
def ipv6Groups (p : List Nat) : List Nat :=
  (List.range 8).map (fun k => be16 (p.getD (2 * k) 0) (p.getD (2 * k + 1) 0))

/-- Model of the IPv6 branch of `net.IP.String`.  The Go loop appends hex
groups joined by `:`, emitting `::` at the zero run and jumping over it, which
amounts to: groups before the run joined by `:`, then `::`, then groups from
the end of the run joined by `:` (or a plain join when there is no run). -/
def ipv6String (p : List Nat) : List Nat :=
  let r := zeroRun p
  let gs := ipv6Groups p
  if r.1 = -1 then List.intercalate [58] (gs.map hexStr)
  else
    List.intercalate [58] ((gs.take (r.1.toNat / 2)).map hexStr) ++ [58, 58] ++
      List.intercalate [58] ((gs.drop (r.2.toNat / 2)).map hexStr)

/-- Dotted-quad form of four address bytes (the IPv4 branch of
`net.IP.String`). -/
def dottedQuad (q : List Nat) : List Nat :=
  List.intercalate [46] (q.map itoa)

/-- Model of `hexString` in net/ip.go: two lowercase hex digits per byte. -/
def hexDump (b : List Nat) : List Nat :=
  b.flatMap (fun x => [hexDigitByte (x / 16 % 16), hexDigitByte (x % 16)])

/-- Model of Go `net.IP.String`: `<nil>` for the nil IP, dotted quad when `To4`
applies, `?`+hex for lengths other than 4 and 16, RFC 5952 text otherwise. -/
def ipString (ip : IP) : List Nat :=
  if ip = [] then chs ['<', 'n', 'i', 'l', '>']
  else
    let p4 := to4 ip
    if p4.length = 4 then dottedQuad p4
    else if ip.length ≠ 16 then 63 :: hexDump ip
    else ipv6String ip

/-- Model of `isIPv4` in the package root: `ip.To4() != nil`. -/
def isIPv4 (ip : IP) : Bool := to4 ip ≠ []

/-- Model of `isIPv6` in the package root: `ip.To16() != nil && !isIPv4(ip)`. -/
def isIPv6 (ip : IP) : Bool := to16 ip ≠ [] && ¬ isIPv4 ip

/- ----------------------------------------------------------------
   v1 wire codec (src/v1.go).
   ---------------------------------------------------------------- -/

/-- The v1 signature bytes `PROXY`. -/
def SIGV1 : List Nat := chs ['P', 'R', 'O', 'X', 'Y']

/-- The v2 signature bytes. -/
def SIGV2 : List Nat :=
  [0x0D, 0x0A, 0x0D, 0x0A, 0x00, 0x0D, 0x0A, 0x51, 0x55, 0x49, 0x54, 0x0A]

/-- Carriage-return line-feed. -/
def CRLF : List Nat := [13, 10]

/-- v1header (v1header.go): the header value produced by both parsers. -/
structure V1Header where
  command : Nat := 0
  transportProtocol : Nat := 0
  sourceAddress : IP := []
  destinationAddress : IP := []
  sourcePort : Nat := 0
  destinationPort : Nat := 0
deriving DecidableEq, Repr

/-- initVersion1: command does not exist in v1, so it is set to PROXY. -/
def initVersion1 : V1Header := { command := PROXY }

/-- parseV1PortNumber (v1.go).  Returns the port and the error, like the Go
pair.  Note the Go source checks the still-zero `port` variable, not the parsed
`_port`, before converting with `uint16(_port)`; the range check is therefore
never triggered, which the embedding reproduces. -/
def parseV1PortNumber (portStr : List Nat) : Nat × Option GoErr :=
  let port : Nat := 0
  match atoi portStr with
  | .error e => (port, some e)
  | .ok v =>
    let err := if port > 65535 then some GoErr.invalidPortNumber else none
    (uint16OfInt v, err)

/-- parseV1IPAddress (v1.go). -/
def parseV1IPAddress (protocol : Nat) (addrStr : List Nat) : IP × Option GoErr :=
  let addr := parseIP addrStr
  let tryV4 := to4 addr
  let err :=
    if (protocol = TCPv4 ∧ tryV4 = []) ∨ (protocol = TCPv6 ∧ tryV4 ≠ []) then
      some GoErr.invalidAddress
    else none
  (addr, err)

/-- parseVersion1 (v1.go): reads a line up to the first LF (the ReadString
error is ignored by the source), requires a CRLF suffix and at least six
space-separated tokens, then parses transport, addresses and ports.  Like the
Go function, which mutates the reader through a pointer, the final reader
state is returned on every path. -/
def parseVersion1 (reader : Reader) : Except GoErr V1Header × Reader :=
  let lr := reader.readUntil 10
  let line := lr.1
  let r1 := lr.2
  if ¬ CRLF.isSuffixOf line then (.error .cantReadProtocolVersionAndCommand, r1)
  else
    let tokens := (line.take (line.length - 2)).splitOn 32
    if tokens.length < 6 then (.error .cantReadProtocolVersionAndCommand, r1)
    else
      let transport :=
        if tokens.getD 1 [] = chs ['T', 'C', 'P', '4'] then TCPv4
        else if tokens.getD 1 [] = chs ['T', 'C', 'P', '6'] then TCPv6
        else UNSPEC
      match parseV1IPAddress transport (tokens.getD 2 []) with
      | (_, some e) => (.error e, r1)
      | (srcA, none) =>
        match parseV1IPAddress transport (tokens.getD 3 []) with
        | (_, some e) => (.error e, r1)
        | (dstA, none) =>
          match parseV1PortNumber (tokens.getD 4 []) with
          | (_, some e) => (.error e, r1)
          | (srcP, none) =>
            match parseV1PortNumber (tokens.getD 5 []) with
            | (_, some e) => (.error e, r1)
            | (dstP, none) =>
              (.ok { initVersion1 with
                      transportProtocol := transport
                      sourceAddress := srcA
                      destinationAddress := dstA
                      sourcePort := srcP
                      destinationPort := dstP }, r1)

/-- v1header.Format (v1.go): `PROXY <proto> <src> <dst> <sport> <dport>\r\n`
where `<proto>` is `TCP4`, `TCP6` or `UNKNOWN`; the address and port fields are
always written.  The Go error result is always nil. -/
def v1Format (header : V1Header) : List Nat :=
  let proto :=
    if header.transportProtocol = TCPv4 then chs ['T', 'C', 'P', '4']
    else if header.transportProtocol = TCPv6 then chs ['T', 'C', 'P', '6']
    else chs ['U', 'N', 'K', 'N', 'O', 'W', 'N']
  SIGV1 ++ [32] ++ proto ++ [32] ++ ipString header.sourceAddress ++ [32] ++
    ipString header.destinationAddress ++ [32] ++ itoa header.sourcePort ++
    [32] ++ itoa header.destinationPort ++ CRLF

/- ----------------------------------------------------------------
   v2 wire codec (the v2 parser/formatter source file).
   ---------------------------------------------------------------- -/

/-- v2header: embeds a v1header and carries the eagerly decoded TLV fields.
Maps are modelled as in-order association lists; Go nil slices/strings are
`none`. -/
structure V2Header where
  hdr : V1Header := {}
  Alpn : Option (List Nat) := none
  Authority : Option (List Nat) := none
  SslClientBits : Nat := 0
  SslClientSsl : Bool := false
  SslClientCertConn : Bool := false
  SslClientCertSess : Bool := false
  SslVersion : Option (List Nat) := none
  SslCn : Option (List Nat) := none
  SslCipher : Option (List Nat) := none
  SslSigAlg : Option (List Nat) := none
  SslKeyAlg : Option (List Nat) := none
  netNs : Option (List Nat) := none
  Custom : List (Nat × List Nat) := []
  Experiment : List (Nat × List Nat) := []
deriving DecidableEq, Repr

/-- Update of a Go map modelled as an association list. -/
def mapSet (m : List (Nat × List Nat)) (k : Nat) (v : List Nat) :
    List (Nat × List Nat) :=
  match m with
  | [] => [(k, v)]
  | (k0, v0) :: t => if k0 = k then (k, v) :: t else (k0, v0) :: mapSet t k v

/-- validateLength (v2 source): the declared remainder must cover the address
block of the family; anything else (including UNSPEC) is invalid. -/
def validateLength (transport : Nat) (length : Nat) : Bool :=
  if isIPv4Family transport then 12 ≤ length
  else if isIPv6Family transport then 36 ≤ length
  else if isUnixFamily transport then 216 ≤ length
  else false

/-- Consume `min n avail` bytes and report an error when fewer than `n` were
available — the semantics of `binary.Read(io.LimitReader(reader, n), ...)`. -/
def Reader.readFull (r : Reader) (n : Nat) : List Nat × Reader × Option GoErr :=
  let k := min n r.avail
  (r.rest.take k, ⟨r.data, r.pos + k⟩, if k < n then some GoErr.tlvReadError else none)

/-- parseV2TlvGenericBytes: `make([]byte, maxLength)` filled by a single
`reader.Read`; a short read leaves the zero tail in place and `n` is ignored
by the source. -/
def parseV2TlvGenericBytes (r : Reader) (maxLength : Nat) :
    List Nat × Reader × Option GoErr :=
  match r.readUpTo maxLength with
  | (bytes, n, r2, err) => (bytes ++ List.replicate (maxLength - n) 0, r2, err)

/-- TLV type constants of the v2 source file. -/
def v2TlvTypeAlpn : Nat := 0x01

def v2TlvTypeAuthority : Nat := 0x02

def v2TlvTypeCrc32c : Nat := 0x03

def v2TlvTypeNoop : Nat := 0x04

def v2TlvTypeSsl : Nat := 0x20

def v2TlvSubtypeSslVersion : Nat := 0x21

def v2TlvSubtypeSslCn : Nat := 0x22

def v2TlvSubtypeSslCipher : Nat := 0x23

def v2TlvSubtypeSslSigAlg : Nat := 0x24

def v2TlvSubtypeSslKeyAlg : Nat := 0x25

def v2TlvTypeNetNs : Nat := 0x30

/-- Custom TLV type range 0xE0..0xEF of the v2 source file. -/
def isV2TlvTypeCustom (b : Nat) : Bool := 0xE0 ≤ b && b ≤ 0xEF

/-- Experiment TLV type range 0xF0..0xF7 of the v2 source file. -/
def isV2TlvTypeExperiment (b : Nat) : Bool := 0xF0 ≤ b && b ≤ 0xF7

mutual

/-- parseVersion2Tlv: the `for length > 0` loop, with explicit fuel for the
mutual recursion through the SSL sub-TLV parser (4*length+4 at the entry point
is always sufficient since each record consumes at least three units of the
budget).  Go mutates the header and reader through pointers, so partial updates
survive an error; the state is threaded accordingly and the error returned
alongside. -/
def parseVersion2TlvLoop : Nat → V2Header → Reader → Nat →
    V2Header × Reader × Option GoErr
  | 0, h, r, _ => (h, r, none)
  | fuel + 1, h, r, length =>
    if length = 0 then (h, r, none)
    else
      match parseV2TlvField fuel h r length with
      | (h2, r2, _, some e) => (h2, r2, some e)
      | (h2, r2, len2, none) => parseVersion2TlvLoop fuel h2 r2 len2

/-- parseV2TlvField: reads one `type | len16 | value` record and stores the
value in the matching header field; CRC32C and NOOP records do not consume
their value bytes; unimplemented types only log. -/
def parseV2TlvField : Nat → V2Header → Reader → Nat →
    V2Header × Reader × Nat × Option GoErr
  | fuel, h, r, length =>
    match r.readByte with
    | none => (h, r, length, some .tlvReadError)
    | some (tlvType, r1) =>
      match r1.readFull 2 with
      | (_, r2, some _) => (h, r2, length, some .tlvReadError)
      | (lenB, r2, none) =>
        let tlvLength := be16 (lenB.getD 0 0) (lenB.getD 1 0)
        if tlvLength + 3 > length then (h, r2, length, some .tlvFieldTooLong)
        else
          let length2 := length - (3 + tlvLength)
          if tlvType = v2TlvTypeAlpn then
            match parseV2TlvGenericBytes r2 tlvLength with
            | (v, r3, err) => ({ h with Alpn := some v }, r3, length2, err)
          else if tlvType = v2TlvTypeAuthority then
            match parseV2TlvGenericBytes r2 tlvLength with
            | (v, r3, err) => ({ h with Authority := some v }, r3, length2, err)
          else if tlvType = v2TlvTypeCrc32c then
            -- not (yet) implemented: value bytes are not consumed
            (h, r2, length2, none)
          else if tlvType = v2TlvTypeNoop then
            -- ignored when parsed: value bytes are not consumed
            (h, r2, length2, none)
          else if tlvType = v2TlvTypeSsl then
            match parseV2TlvSsl fuel h r2 tlvLength with
            | (h3, r3, err) => (h3, r3, length2, err)
          else if tlvType = v2TlvSubtypeSslVersion then
            match parseV2TlvGenericBytes r2 tlvLength with
            | (v, r3, err) => ({ h with SslVersion := some v }, r3, length2, err)
          else if tlvType = v2TlvSubtypeSslCn then
            match parseV2TlvGenericBytes r2 tlvLength with
            | (v, r3, err) => ({ h with SslCn := some v }, r3, length2, err)
          else if tlvType = v2TlvSubtypeSslCipher then
            match parseV2TlvGenericBytes r2 tlvLength with
            | (v, r3, err) => ({ h with SslCipher := some v }, r3, length2, err)
          else if tlvType = v2TlvSubtypeSslSigAlg then
            match parseV2TlvGenericBytes r2 tlvLength with
            | (v, r3, err) => ({ h with SslSigAlg := some v }, r3, length2, err)
          else if tlvType = v2TlvSubtypeSslKeyAlg then
            match parseV2TlvGenericBytes r2 tlvLength with
            | (v, r3, err) => ({ h with SslKeyAlg := some v }, r3, length2, err)
          else if tlvType = v2TlvTypeNetNs then
            match parseV2TlvGenericBytes r2 tlvLength with
            | (v, r3, err) => ({ h with netNs := some v }, r3, length2, err)
          else if isV2TlvTypeCustom tlvType then
            match parseV2TlvGenericBytes r2 tlvLength with
            | (v, r3, err) =>
              ({ h with Custom := mapSet h.Custom tlvType v }, r3, length2, err)
          else if isV2TlvTypeExperiment tlvType then
            -- the source also stores experiment types in the Custom map
            match parseV2TlvGenericBytes r2 tlvLength with
            | (v, r3, err) =>
              ({ h with Custom := mapSet h.Custom tlvType v }, r3, length2, err)
          else
            -- unimplemented TLV type: only printed, value bytes not consumed
            (h, r2, length2, none)

/-- parseV2TlvSsl: client-bits byte, four discarded verify bytes, then the
sub-TLV loop whose error the source drops (it always returns nil after the
header byte was read). -/
def parseV2TlvSsl : Nat → V2Header → Reader → Nat →
    V2Header × Reader × Option GoErr
  | fuel, h, r, maxLength =>
    if maxLength < 5 then (h, r, some .sslTooShort)
    else
      match r.readByte with
      | none => (h, r, some .tlvReadError)
      | some (clientBits, r1) =>
        let r2 := r1.discard 4
        let h2 := { h with
          SslClientBits := clientBits
          SslClientSsl := clientBits % 2 = 1
          SslClientCertConn := clientBits / 2 % 2 = 1
          SslClientCertSess := clientBits / 4 % 2 = 1 }
        match parseVersion2TlvLoop fuel h2 r2 (maxLength - 5) with
        | (h3, r3, _) => (h3, r3, none)

end

/-- parseVersion2Tlv at its call sites, with sufficient fuel. -/
def parseVersion2Tlv (h : V2Header) (r : Reader) (length : Nat) :
    V2Header × Reader × Option GoErr :=
  parseVersion2TlvLoop (4 * length + 4) h r length

/-- parseVersion2 (v2 source file): skips the 12 signature bytes (without
checking them — the Read entry point already did), reads the command byte and
returns right away for LOCAL; otherwise reads family, length, address block,
and runs the TLV loop, whose error the source ignores. -/
def parseVersion2 (reader : Reader) : Except GoErr V2Header × Reader :=
  -- the signature skip is a ReadByte loop: at end of stream it has consumed
  -- whatever was available
  match reader.readFull 12 with
  | (_, rE, some _) => (.error .cantReadProtocolVersionAndCommand, rE)
  | (_, r12, none) =>
    match r12.readByte with
    | none => (.error .cantReadProtocolVersionAndCommand, r12)
    | some (b13, r13) =>
      let h0 : V2Header := { hdr := { command := b13 } }
      if ¬ supportedCommand b13 then
        (.error .unsupportedProtocolVersionAndCommand, r13)
      else if isLocalCmd b13 then (.ok h0, r13)
      else
        match r13.readByte with
        | none => (.error .cantReadAddressFamilyAndProtocol, r13)
        | some (b14, r14) =>
          let h1 := { h0 with hdr := { h0.hdr with transportProtocol := b14 } }
          if ¬ supportedTransportProtocol b14 then
            (.error .unsupportedAddressFamilyAndProtocol, r14)
          else
            match r14.readFull 2 with
            | (_, rE, some _) => (.error .cantReadLength, rE)
            | (lenB, r16, none) =>
              let length := be16 (lenB.getD 0 0) (lenB.getD 1 0)
              if ¬ validateLength b14 length then (.error .invalidLength, r16)
              else
                match r16.peek length with
                | none => (.error .invalidLength, r16)
                | some _ =>
                  if isIPv4Family b14 then
                    match r16.readFull 12 with
                    | (_, rE, some _) => (.error .invalidAddress, rE)
                    | (ab, rA, none) =>
                      let h2 := { h1 with hdr := { h1.hdr with
                        sourceAddress := ab.take 4
                        destinationAddress := (ab.drop 4).take 4
                        sourcePort := be16 (ab.getD 8 0) (ab.getD 9 0)
                        destinationPort := be16 (ab.getD 10 0) (ab.getD 11 0) } }
                      let res := parseVersion2Tlv h2 rA (length - 12)
                      (.ok res.1, res.2.1)
                  else if isIPv6Family b14 then
                    match r16.readFull 36 with
                    | (_, rE, some _) => (.error .invalidAddress, rE)
                    | (ab, rA, none) =>
                      let h2 := { h1 with hdr := { h1.hdr with
                        sourceAddress := ab.take 16
                        destinationAddress := (ab.drop 16).take 16
                        sourcePort := be16 (ab.getD 32 0) (ab.getD 33 0)
                        destinationPort := be16 (ab.getD 34 0) (ab.getD 35 0) } }
                      let res := parseVersion2Tlv h2 rA (length - 36)
                      (.ok res.1, res.2.1)
                  else
                    -- Unix support is commented out in the source:
                    -- no addresses are read and tlvLength stays zero
                    let res := parseVersion2Tlv h1 r16 0
                    (.ok res.1, res.2.1)

/-- v2header.Format: signature, command byte, and for non-LOCAL commands the
family byte, the address-block length (TLVs are never written — a TODO in the
source), the family-converted addresses and the two ports. -/
def v2Format (h : V2Header) : List Nat :=
  let tp := h.hdr.transportProtocol
  SIGV2 ++ [h.hdr.command] ++
    (if isLocalCmd h.hdr.command then []
     else
       let lenAddr : List Nat × List Nat × List Nat :=
         if isIPv4Family tp then
           (putUint16 12, to4 h.hdr.sourceAddress, to4 h.hdr.destinationAddress)
         else if isIPv6Family tp then
           (putUint16 36, to16 h.hdr.sourceAddress, to16 h.hdr.destinationAddress)
         else if isUnixFamily tp then
           (putUint16 216, ipString h.hdr.sourceAddress, ipString h.hdr.destinationAddress)
         else ([], [], [])
       [tp] ++ lenAddr.1 ++ lenAddr.2.1 ++ lenAddr.2.2 ++
         putUint16 h.hdr.sourcePort ++ putUint16 h.hdr.destinationPort)

/- ----------------------------------------------------------------
   Read entry point (the protocol source file) and the wrapping Conn
   (the listener/conn source file + v1header.go address methods).
   ---------------------------------------------------------------- -/

/-- The `header` interface value returned by Read. -/
inductive Hdr where
  | v1 : V1Header → Hdr
  | v2 : V2Header → Hdr
deriving DecidableEq, Repr

/-- Peek `n` bytes and compare with a signature (`reader.Peek(n)` succeeded and
the bytes are equal). -/
def peekIs (r : Reader) (n : Nat) (sig : List Nat) : Bool :=
  match r.peek n with
  | some l => l == sig
  | none => false

/-- Read (the protocol source file): peek one byte; only when it is `P` or
`0x0D` try the two signatures; otherwise ErrNoProxyProtocol with the reader
untouched. -/
def Read (reader : Reader) : Except GoErr Hdr × Reader :=
  let b1ok :=
    match reader.peek 1 with
    | some l => l.getD 0 0 == 0x50 || l.getD 0 0 == 0x0D
    | none => false
  if b1ok then
    if peekIs reader 5 SIGV1 then
      match parseVersion1 reader with
      | (.ok h, r) => (.ok (Hdr.v1 h), r)
      | (.error e, r) => (.error e, r)
    else if peekIs reader 12 SIGV2 then
      match parseVersion2 reader with
      | (.ok h, r) => (.ok (Hdr.v2 h), r)
      | (.error e, r) => (.error e, r)
    else (.error .noProxyProtocol, reader)
  else (.error .noProxyProtocol, reader)

/-- Model of a net.Addr: a TCP address or an opaque non-TCP address. -/
inductive Addr where
  | tcp (ip : IP) (port : Nat)
  | other (tag : Nat)
deriving DecidableEq, Repr

/-- v1header.RemoteAddr (v1header.go): always a TCPAddr built from the source
address and port, for v1 and v2 headers alike (v2header embeds v1header). -/
def hdrRemoteAddr : Hdr → Addr
  | .v1 h => .tcp h.sourceAddress h.sourcePort
  | .v2 h => .tcp h.hdr.sourceAddress h.hdr.sourcePort

/-- v1header.LocalAddr (v1header.go): always a TCPAddr built from the
destination address and port. -/
def hdrLocalAddr : Hdr → Addr
  | .v1 h => .tcp h.destinationAddress h.destinationPort
  | .v2 h => .tcp h.hdr.destinationAddress h.hdr.destinationPort

/-- State of a wrapping Conn relevant to the address methods: the underlying
connection's addresses and the header field, which readHeader sets only when
Read succeeded. -/
structure Conn where
  underlyingLocal : Addr
  underlyingRemote : Addr
  header : Option Hdr
deriving DecidableEq, Repr

/-- The Conn after its `once.Do(readHeader)` barrier has completed, for a
connection whose buffered stream holds the given bytes. -/
def connAfterOnce (data : List Nat) (ul ur : Addr) : Conn :=
  { underlyingLocal := ul
    underlyingRemote := ur
    header :=
      match Read ⟨data, 0⟩ with
      | (.ok h, _) => some h
      | (.error _, _) => none }

/-- Conn.LocalAddr (the listener/conn source file): the underlying address only
when no header was stored, the header's destination otherwise. -/
def Conn.LocalAddr (c : Conn) : Addr :=
  match c.header with
  | none => c.underlyingLocal
  | some h => hdrLocalAddr h

/-- Conn.RemoteAddr (the listener/conn source file): the underlying address
only when no header was stored, the header's source otherwise. -/
def Conn.RemoteAddr (c : Conn) : Addr :=
  match c.header with
  | none => c.underlyingRemote
  | some h => hdrRemoteAddr h

/- ----------------------------------------------------------------
   TLV vector codecs and SSL TLV decoders
   (policy.go, both generations, and tlvparse/ssl.go).
   ---------------------------------------------------------------- -/

/-- TLV (policy.go): an uninterpreted Type-Length-Value record.  `Length` is a
Go int, nonnegative in every code path. -/
structure TLV where
  Typ : Nat
  Length : Nat
  Value : List Nat
deriving DecidableEq, Repr

/-- PP2_TYPE_NOOP. -/
def PP2_TYPE_NOOP : Nat := 0x04

/-- PP2_TYPE_SSL. -/
def PP2_TYPE_SSL : Nat := 0x20

/-- PP2_SUBTYPE_SSL_VERSION. -/
def PP2_SUBTYPE_SSL_VERSION : Nat := 0x21

/-- PP2_SUBTYPE_SSL_CN. -/
def PP2_SUBTYPE_SSL_CN : Nat := 0x22

/-- Big-endian 32-bit value of four bytes (`binary.BigEndian.Uint32`). -/
def be32 (b0 b1 b2 b3 : Nat) : Nat :=
  ((b0 * 256 + b1) * 256 + b2) * 256 + b3

/-- Loop of splitTLVs (policy.go): walks the slab at index `i`; a record
boundary with three or fewer bytes left is a truncation error, as is a value
running past the slab; NOOP values are not retained. -/
def splitTLVsLoop (raw : List Nat) (i : Nat) (acc : List TLV) :
    Except GoErr (List TLV) :=
  if h : i < raw.length then
    let t := raw.getD i 0
    if raw.length - i ≤ 3 then .error .truncatedTLV
    else
      let len := be16 (raw.getD (i + 1) 0) (raw.getD (i + 2) 0)
      let i3 := i + 3
      if i3 + len > raw.length then .error .truncatedTLV
      else
        let value := if t ≠ PP2_TYPE_NOOP then (raw.drop i3).take len else []
        splitTLVsLoop raw (i3 + len) (acc ++ [{ Typ := t, Length := len, Value := value }])
  else .ok acc
  termination_by raw.length - i

/-- splitTLVs (policy.go, the generation with the short-slab guard); also the
model of the exported SplitTLVs used by tlvparse, which the spec describes with
the same walk (§4.2 "TLV split") and whose defining file is absent from the
source tree. -/
def splitTLVs (raw : List Nat) : Except GoErr (List TLV) :=
  splitTLVsLoop raw 0 []

/-- Result of readTLVs: a vector, an error, or a Go run-time panic from a slice
expression beyond the slab's capacity. -/
inductive TLVRes where
  | ok : List TLV → TLVRes
  | err : GoErr → TLVRes
  | oob : TLVRes
deriving DecidableEq, Repr

/-- Loop of readTLVs (policy.go, the io.Reader generation).  `rest` is the slab
returned by io.ReadAll, `cp` its capacity and `mem k` the contents of the
backing array at positions `rest.length ≤ k < cp` (io.ReadAll always returns
cap > len with the spare zeroed, but nothing below depends on the values).
The slice expression `rest[i+1:i+3]` has no explicit bound check in this
generation: it reads up to the capacity and panics past it. -/
def readTLVsLoop (rest : List Nat) (cp : Nat) (mem : Nat → Nat) (i : Nat)
    (acc : List TLV) : TLVRes :=
  if h : i < rest.length then
    let t := rest.getD i 0
    if i + 3 > cp then .oob
    else
      let idx1 := if i + 1 < rest.length then rest.getD (i + 1) 0 else mem (i + 1)
      let idx2 := if i + 2 < rest.length then rest.getD (i + 2) 0 else mem (i + 2)
      let len := be16 idx1 idx2
      let i3 := i + 3
      if i3 + len > rest.length then .err .truncatedTLV
      else
        let value := if t ≠ PP2_TYPE_NOOP then (rest.drop i3).take len else []
        readTLVsLoop rest cp mem (i3 + len)
          (acc ++ [{ Typ := t, Length := len, Value := value }])
  else .ok acc
  termination_by rest.length - i

/-- readTLVs (policy.go, the io.Reader generation), for a successfully drained
reader. -/
def readTLVs (rest : List Nat) (cp : Nat) (mem : Nat → Nat) : TLVRes :=
  readTLVsLoop rest cp mem 0 []

/-- PP2SSL (both policy.go and tlvparse/ssl.go). -/
structure PP2SSL where
  Client : Nat
  Verify : Nat
  TLV : List TLV
deriving DecidableEq, Repr

/-- PP2SSL.ClientSSL: the 0x01 bit of the client byte. -/
def PP2SSL.ClientSSL (client : Nat) : Bool := client % 2 = 1

/-- isASCII (policy.go and tlvparse/ssl.go): every byte at most 0x7F. -/
def isASCII (b : List Nat) : Bool := b.all (fun c => c ≤ 127)

/-- Model of Go `utf8.Valid`: the RFC 3629 byte-sequence table. -/
def utf8Valid : List Nat → Bool
  | [] => true
  | c :: rest =>
    if c ≤ 0x7F then utf8Valid rest
    else if 0xC2 ≤ c ∧ c ≤ 0xDF then
      match rest with
      | c1 :: rest1 => utf8Cont c1 && utf8Valid rest1
      | [] => false
    else if 0xE0 ≤ c ∧ c ≤ 0xEF then
      match rest with
      | c1 :: c2 :: rest2 => utf8Lo2 c c1 && utf8Cont c2 && utf8Valid rest2
      | _ => false
    else if 0xF0 ≤ c ∧ c ≤ 0xF4 then
      match rest with
      | c1 :: c2 :: c3 :: rest3 =>
        utf8Lo3 c c1 && utf8Cont c2 && utf8Cont c3 && utf8Valid rest3
      | _ => false
    else false
where
  /-- Continuation byte 0x80..0xBF. -/
  utf8Cont (b : Nat) : Bool := 0x80 ≤ b && b ≤ 0xBF
  /-- First continuation range for three-byte sequences. -/
  utf8Lo2 (c c1 : Nat) : Bool :=
    if c = 0xE0 then 0xA0 ≤ c1 && c1 ≤ 0xBF
    else if c = 0xED then 0x80 ≤ c1 && c1 ≤ 0x9F
    else 0x80 ≤ c1 && c1 ≤ 0xBF
  /-- First continuation range for four-byte sequences. -/
  utf8Lo3 (c c1 : Nat) : Bool :=
    if c = 0xF0 then 0x90 ≤ c1 && c1 ≤ 0xBF
    else if c = 0xF4 then 0x80 ≤ c1 && c1 ≤ 0x8F
    else 0x80 ≤ c1 && c1 ≤ 0xBF

/-- tlvSSLMinLen: client byte plus verify word. -/
def tlvSSLMinLen : Nat := 5

/-- TLV.SSLType (policy.go): SSL type with a declared Length of at least 5. -/
def TLV.SSLType (t : TLV) : Bool := t.Typ == PP2_TYPE_SSL && tlvSSLMinLen ≤ t.Length

/-- Sub-TLV validation loop of TLV.SSL (policy.go): early ErrMalformedTLV on a
bad version or CN value, otherwise tracks whether a version and a CN sub-TLV
were seen. -/
def sslSubLoopPolicy (tlvs : List TLV) (versionFound cnFound : Bool) :
    Except GoErr (Bool × Bool) :=
  match tlvs with
  | [] => .ok (versionFound, cnFound)
  | tlv :: rest =>
    if tlv.Typ = PP2_SUBTYPE_SSL_VERSION then
      if tlv.Length = 0 ∨ ¬ isASCII tlv.Value then .error .malformedTLV
      else sslSubLoopPolicy rest true cnFound
    else if tlv.Typ = PP2_SUBTYPE_SSL_CN then
      if tlv.Length = 0 ∨ ¬ utf8Valid tlv.Value then .error .malformedTLV
      else sslSubLoopPolicy rest versionFound true
    else sslSubLoopPolicy rest versionFound cnFound

/-- TLV.SSL (policy.go): decodes the client byte, the verify word and the
sub-TLVs, then requires a valid version sub-TLV whenever ClientSSL is set AND
a CN sub-TLV in all cases (`!(versionFound && cnFound)` fails).  Field
accesses assume Length ≤ len(Value), as holds for every TLV produced by
splitTLVs. -/
def TLV.SSL (t : TLV) : Except GoErr PP2SSL :=
  if ¬ t.SSLType then .error .incompatibleTLV
  else if t.Length < tlvSSLMinLen then .error .malformedTLV
  else
    let client := t.Value.getD 0 0
    let verify := be32 (t.Value.getD 1 0) (t.Value.getD 2 0) (t.Value.getD 3 0) (t.Value.getD 4 0)
    match splitTLVs (t.Value.drop 5) with
    | .error e => .error e
    | .ok tlvs =>
      let versionFound := ¬ PP2SSL.ClientSSL client
      match sslSubLoopPolicy tlvs versionFound false with
      | .error e => .error e
      | .ok (vf, cf) =>
        if ¬ (vf ∧ cf) then .error .malformedTLV
        else .ok { Client := client, Verify := verify, TLV := tlvs }

namespace Tlvparse

/-- IsSSL (tlvparse/ssl.go): SSL type with at least five value bytes. -/
def IsSSL (t : TLV) : Bool := t.Typ == PP2_TYPE_SSL && tlvSSLMinLen ≤ t.Value.length

/-- Sub-TLV validation loop of SSL (tlvparse/ssl.go): as the policy.go loop but
with no CN presence tracking. -/
def sslSubLoop (tlvs : List TLV) (versionFound : Bool) : Except GoErr Bool :=
  match tlvs with
  | [] => .ok versionFound
  | tlv :: rest =>
    if tlv.Typ = PP2_SUBTYPE_SSL_VERSION then
      if tlv.Value.length = 0 ∨ ¬ isASCII tlv.Value then .error .malformedTLV
      else sslSubLoop rest true
    else if tlv.Typ = PP2_SUBTYPE_SSL_CN then
      if tlv.Value.length = 0 ∨ ¬ utf8Valid tlv.Value then .error .malformedTLV
      else sslSubLoop rest versionFound
    else sslSubLoop rest versionFound

/-- SSL (tlvparse/ssl.go): the decoder that requires a version sub-TLV only
when ClientSSL is set; a missing CN sub-TLV is not an error. -/
def SSL (t : TLV) : Except GoErr PP2SSL :=
  if ¬ IsSSL t then .error .incompatibleTLV
  else if t.Value.length < tlvSSLMinLen then .error .malformedTLV
  else
    let client := t.Value.getD 0 0
    let verify := be32 (t.Value.getD 1 0) (t.Value.getD 2 0) (t.Value.getD 3 0) (t.Value.getD 4 0)
    match splitTLVs (t.Value.drop 5) with
    | .error e => .error e
    | .ok tlvs =>
      let versionFound := ¬ PP2SSL.ClientSSL client
      match sslSubLoop tlvs versionFound with
      | .error e => .error e
      | .ok vf =>
        if ¬ vf then .error .malformedTLV
        else .ok { Client := client, Verify := verify, TLV := tlvs }

end Tlvparse

/- ----------------------------------------------------------------
   Concrete inputs used by the claim theorems.
   ---------------------------------------------------------------- -/

/-- The v1 line `PROXY UNKNOWN\r\n`. -/
def fixtureUnknownLine : List Nat :=
  chs ['P', 'R', 'O', 'X', 'Y', ' ', 'U', 'N', 'K', 'N', 'O', 'W', 'N'] ++ CRLF

/-- The v1 line `PROXY UNKNOWN 10.0.0.1 10.0.0.2 99999 99999\r\n`. -/
def fixtureUnknownGarbage : List Nat :=
  chs ['P', 'R', 'O', 'X', 'Y', ' ', 'U', 'N', 'K', 'N', 'O', 'W', 'N', ' ',
       '1', '0', '.', '0', '.', '0', '.', '1', ' ',
       '1', '0', '.', '0', '.', '0', '.', '2', ' ',
       '9', '9', '9', '9', '9', ' ', '9', '9', '9', '9', '9'] ++ CRLF

/-- A v1 input of 214 bytes that never contains a line feed. -/
def fixtureLongLine : List Nat :=
  chs ['P', 'R', 'O', 'X', 'Y', ' ', 'U', 'N', 'K', 'N', 'O', 'W', 'N', ' '] ++
    List.replicate 200 97

/-- The spec's scenario-6 input: v2 signature, LOCAL command, UNSPEC family,
declared length 5, and an ALPN TLV with value `h2`. -/
def fixtureLocalAlpn : List Nat :=
  SIGV2 ++ [0x20, 0x00, 0x00, 0x05, 0x01, 0x00, 0x02, 0x68, 0x32]

/- ----------------------------------------------------------------
   Claim theorems.
   ---------------------------------------------------------------- -/

/-- Claim C2 (confirmed): for every input stream whose first byte is neither
`P` (0x50) nor 0x0D, Read returns ErrNoProxyProtocol and consumes no bytes:
the reader comes back with its position unchanged, so subsequent reads see
exactly the same bytes. -/
theorem C2_read_purity_on_nonsignature (data : List Nat) (b : Nat)
    (hhead : data.head? = some b) (h50 : b ≠ 0x50) (h0d : b ≠ 0x0D) :
    Read ⟨data, 0⟩ = (.error .noProxyProtocol, ⟨data, 0⟩) := by
  obtain ⟨t, rfl⟩ : ∃ t, data = b :: t := by
    cases data with
    | nil => simp at hhead
    | cons x t => exact ⟨t, by simpa using congrArg (fun o => o.getD 0 :: t) hhead⟩
  have hb : (b == 0x50 || b == 0x0D) = false := by
    simp [beq_iff_eq, h50, h0d]
  simp [Read, Reader.peek, Reader.rest, hb]

/-- Witness for C2 at the concrete stream `GET`. -/
theorem C2_witness :
    Read ⟨[0x47, 0x45, 0x54], 0⟩ = (.error .noProxyProtocol, ⟨[0x47, 0x45, 0x54], 0⟩) :=
  C2_read_purity_on_nonsignature [0x47, 0x45, 0x54] 0x47 rfl (by decide) (by decide)

/-- The strconv.Atoi model only ever reports its own two error values. -/
theorem atoi_error_cases (s : List Nat) (e : GoErr) (h : atoi s = .error e) :
    e = .atoiSyntax ∨ e = .atoiRange := by
  simp only [atoi] at h
  repeat' split at h
  all_goals first
    | exact .inl (Except.error.inj h).symm
    | exact .inr (Except.error.inj h).symm
    | exact absurd h (by simp)

/-- Claim C5 (code bug): the v1 port validator is supposed to reject tokens
outside [0, 65535] with ErrInvalidPortNumber, but the source checks the
still-zero `port` variable instead of the parsed value, so `99999` is silently
truncated to uint16 34463 and no input whatsoever can produce
ErrInvalidPortNumber. -/
theorem C5_v1_port_validation_dead :
    parseV1PortNumber (chs ['9', '9', '9', '9', '9']) = (34463, none) ∧
    ∀ s : List Nat, (parseV1PortNumber s).2 ≠ some GoErr.invalidPortNumber := by
  refine ⟨by decide, fun s => ?_⟩
  unfold parseV1PortNumber
  cases hat : atoi s with
  | error e =>
    rcases atoi_error_cases s e hat with rfl | rfl <;> simp
  | ok v => simp

/-- Claim C4 (code bug): a v1 `UNKNOWN` line is supposed to yield a
LOCAL/UNSPEC header with nil addresses regardless of trailing tokens, but the
source (v1.go) rejects `PROXY UNKNOWN\r\n` outright for having fewer than six
tokens, and on `PROXY UNKNOWN 10.0.0.1 10.0.0.2 99999 99999\r\n` it returns a
header whose command is PROXY (not LOCAL) with parsed (non-nil) addresses and
truncated ports. -/
theorem C4_v1_unknown_not_tolerated :
    (parseVersion1 ⟨fixtureUnknownLine, 0⟩).1 =
      .error .cantReadProtocolVersionAndCommand ∧
    (parseVersion1 ⟨fixtureUnknownGarbage, 0⟩).1 =
      .ok { command := PROXY, transportProtocol := UNSPEC,
            sourceAddress := v4InV6Prefix ++ [10, 0, 0, 1],
            destinationAddress := v4InV6Prefix ++ [10, 0, 0, 2],
            sourcePort := 34463, destinationPort := 34463 } ∧
    PROXY ≠ LOCAL ∧ v4InV6Prefix ++ [10, 0, 0, 1] ≠ ([] : List Nat) := by
  refine ⟨by rfl, by rfl, by decide, by decide⟩

/-- Every path of parseVersion1 leaves the reader exactly past the consumed
line. -/
theorem parseVersion1_reader (r : Reader) :
    (parseVersion1 r).2 = (r.readUntil 10).2 := by
  simp only [parseVersion1]
  repeat' split
  all_goals rfl

set_option maxRecDepth 8000 in
/-- Claim C6 (code bug): the v1 parser is supposed to stop after 107 bytes and
fail with ErrVersion1HeaderTooLong, but the source (v1.go) has no length bound
at all: on a 214-byte `PROXY` line without a line feed it consumes all 214
bytes and fails with ErrCantReadProtocolVersionAndCommand (this generation does
not even define a too-long error).  In general, on any stream without a line
feed the parser consumes the entire stream. -/
theorem C6_v1_no_length_cap :
    (parseVersion1 ⟨fixtureLongLine, 0⟩).1 =
      .error .cantReadProtocolVersionAndCommand ∧
    (parseVersion1 ⟨fixtureLongLine, 0⟩).2.pos = 214 ∧
    fixtureLongLine.length = 214 ∧ 107 < 214 ∧
    ∀ data : List Nat, 10 ∉ data → (parseVersion1 ⟨data, 0⟩).2.pos = data.length := by
  refine ⟨by rfl, by rfl, by rfl, by decide, fun data hlf => ?_⟩
  have hidx : data.indexOf 10 = data.length := List.indexOf_eq_length.mpr hlf
  rw [parseVersion1_reader]
  simp [Reader.readUntil, Reader.rest, hidx]

/-- Claim C3 (code bug): a well-formed v2 header with declared length L is
supposed to be consumed in full (16+L bytes) with the TLV slab retained, but
the v2 parser of this generation returns immediately after the command byte for
LOCAL commands: on the spec's scenario-6 input (signature, 0x20, 0x00, length
5, ALPN TLV `h2` — 21 bytes) it stops at byte 13, never reads the family,
length or TLV bytes, and decodes no ALPN.  The same holds for any LOCAL input:
exactly 13 bytes are consumed. -/
theorem C3_local_remainder_not_drained :
    parseVersion2 ⟨fixtureLocalAlpn, 0⟩ =
      (.ok { hdr := { command := LOCAL } }, ⟨fixtureLocalAlpn, 13⟩) ∧
    fixtureLocalAlpn.length = 21 ∧ (13 : Nat) ≠ 16 + 5 ∧
    ({ hdr := { command := LOCAL } } : V2Header).Alpn = none ∧
    ∀ tail : List Nat,
      parseVersion2 ⟨SIGV2 ++ LOCAL :: tail, 0⟩ =
        (.ok { hdr := { command := LOCAL } }, ⟨SIGV2 ++ LOCAL :: tail, 13⟩) := by
  refine ⟨by rfl, by rfl, by decide, by rfl, fun tail => ?_⟩
  have hlen : (SIGV2 ++ LOCAL :: tail).length = 13 + tail.length := by
    simp [SIGV2]
    omega
  unfold parseVersion2
  simp [Reader.readFull, Reader.avail, Reader.readByte, Reader.rest, hlen,
    SIGV2, LOCAL, supportedCommand, isLocalCmd]

/-- Claim C7 (code bug): when the consumed header's command is LOCAL the
wrapped connection is supposed to report the underlying connection's own
addresses, but this generation's Conn returns the header-derived TCP address
whenever any header was stored: after consuming a bare v2 LOCAL header it
reports the empty TCP address `(nil, 0)` instead of the underlying addresses.
When no header was consumed the underlying addresses are indeed returned. -/
theorem C7_local_addresses_not_fallen_back :
    (connAfterOnce (SIGV2 ++ [LOCAL]) (.tcp [10, 0, 0, 1] 80)
        (.tcp [10, 0, 0, 2] 9000)).LocalAddr = .tcp [] 0 ∧
    (connAfterOnce (SIGV2 ++ [LOCAL]) (.tcp [10, 0, 0, 1] 80)
        (.tcp [10, 0, 0, 2] 9000)).RemoteAddr = .tcp [] 0 ∧
    Addr.tcp [] 0 ≠ .tcp [10, 0, 0, 1] 80 ∧
    Addr.tcp [] 0 ≠ .tcp [10, 0, 0, 2] 9000 ∧
    ∀ ul ur : Addr, (connAfterOnce [0x47, 0x45, 0x54] ul ur).LocalAddr = ul ∧
      (connAfterOnce [0x47, 0x45, 0x54] ul ur).RemoteAddr = ur := by
  refine ⟨by rfl, by rfl, by decide, by decide, fun ul ur => ?_⟩
  constructor <;> rfl

/- ----------------------------------------------------------------
   Character-set lemmas about the textual encoders, used to re-tokenize
   formatted lines.
   ---------------------------------------------------------------- -/

/-- Every byte of a decimal rendering is an ASCII digit. -/
theorem itoa_bounds (n : Nat) : ∀ b ∈ itoa n, 48 ≤ b ∧ b ≤ 57 := by
  intro b hb
  unfold itoa at hb
  split at hb
  · simp only [List.mem_singleton] at hb
    omega
  · simp only [List.mem_map, List.mem_reverse] at hb
    obtain ⟨d, hd, hbd⟩ := hb
    have hdlt := Nat.digits_lt_base (by norm_num) hd
    omega

/-- Every byte of a hex rendering is a digit or a lowercase hex letter. -/
theorem hexStr_bounds (n : Nat) :
    ∀ b ∈ hexStr n, (48 ≤ b ∧ b ≤ 57) ∨ (97 ≤ b ∧ b ≤ 102) := by
  intro b hb
  unfold hexStr at hb
  split at hb
  · simp only [List.mem_singleton] at hb
    omega
  · simp only [List.mem_map, List.mem_reverse] at hb
    obtain ⟨d, hd, hbd⟩ := hb
    have hdlt := Nat.digits_lt_base (by norm_num) hd
    rw [hexDigitByte] at hbd
    split at hbd <;> omega

/-- Membership in an `intercalate [sep]` is membership in a part or the
separator itself. -/
theorem mem_intercalate_sep {α : Type} (sep : α) (ls : List (List α)) (y : α)
    (hy : y ∈ List.intercalate [sep] ls) : y = sep ∨ ∃ l ∈ ls, y ∈ l := by
  induction ls with
  | nil => simp [List.intercalate] at hy
  | cons hd tl ih =>
    cases tl with
    | nil =>
      simp only [List.intercalate, List.intersperse_singleton, List.flatten,
        List.append_nil] at hy
      exact .inr ⟨hd, by simp, hy⟩
    | cons h2 t2 =>
      simp only [List.intercalate, List.intersperse_cons_cons, List.flatten_cons] at hy
      rcases List.mem_append.mp hy with h | h
      · exact .inr ⟨hd, by simp, h⟩
      · rcases List.mem_append.mp h with h | h
        · exact .inl (List.mem_singleton.mp h)
        · rcases ih (by simpa [List.intercalate] using h) with h | ⟨l, hl, hyl⟩
          · exact .inl h
          · exact .inr ⟨l, by simp [hl], hyl⟩

/-- Bytes of a colon-joined hex group list are colons, digits or hex letters;
in particular never space, CR or LF. -/
theorem hexGroupJoin_no_sep (gl : List Nat) :
    ∀ b ∈ List.intercalate [58] (gl.map hexStr), b ≠ 32 ∧ b ≠ 13 ∧ b ≠ 10 := by
  intro b hb
  rcases mem_intercalate_sep 58 _ b hb with rfl | ⟨l, hl, hbl⟩
  · omega
  · simp only [List.mem_map] at hl
    obtain ⟨g, _, rfl⟩ := hl
    rcases hexStr_bounds g b hbl with h | h <;> omega

/-- Bytes of the dotted-quad rendering are digits or dots. -/
theorem dottedQuad_no_sep (q : List Nat) :
    ∀ b ∈ dottedQuad q, b ≠ 32 ∧ b ≠ 13 ∧ b ≠ 10 := by
  intro b hb
  rcases mem_intercalate_sep 46 _ b (by simpa [dottedQuad] using hb) with rfl | ⟨l, hl, hbl⟩
  · omega
  · simp only [List.mem_map] at hl
    obtain ⟨d, _, rfl⟩ := hl
    have := itoa_bounds d b hbl
    omega

/-- Bytes of the RFC 5952 rendering are hex digits or colons. -/
theorem ipv6String_no_sep (p : List Nat) :
    ∀ b ∈ ipv6String p, b ≠ 32 ∧ b ≠ 13 ∧ b ≠ 10 := by
  intro b hb
  simp only [ipv6String] at hb
  split at hb
  · exact hexGroupJoin_no_sep _ b hb
  · rcases List.mem_append.mp hb with h | h
    · rcases List.mem_append.mp h with h | h
      · exact hexGroupJoin_no_sep _ b (by rw [List.map_take] at h ⊢; exact h)
      · simp only [List.mem_cons, List.mem_singleton] at h
        rcases h with rfl | rfl | h
        · omega
        · omega
        · exact absurd h (by simp)
    · exact hexGroupJoin_no_sep _ b (by rw [List.map_drop] at h ⊢; exact h)

/-- Bytes of the fallback hex dump rendering. -/
theorem hexDump_no_sep (l : List Nat) :
    ∀ b ∈ hexDump l, b ≠ 32 ∧ b ≠ 13 ∧ b ≠ 10 := by
  intro b hb
  simp only [hexDump, List.mem_flatMap] at hb
  obtain ⟨x, _, hx⟩ := hb
  have hx1 : ∀ d, d < 16 → hexDigitByte d ≠ 32 ∧ hexDigitByte d ≠ 13 ∧ hexDigitByte d ≠ 10 := by
    intro d hd
    unfold hexDigitByte
    split <;> omega
  simp only [List.mem_cons, List.mem_singleton] at hx
  rcases hx with rfl | rfl | h
  · exact hx1 _ (Nat.mod_lt _ (by norm_num))
  · exact hx1 _ (Nat.mod_lt _ (by norm_num))
  · exact absurd h (by simp)

/-- The IP renderer never produces a space, CR or LF. -/
theorem ipString_no_sep (ip : IP) : ∀ b ∈ ipString ip, b ≠ 32 ∧ b ≠ 13 ∧ b ≠ 10 := by
  intro b hb
  simp only [ipString] at hb
  have hnil : chs ['<', 'n', 'i', 'l', '>'] = [60, 110, 105, 108, 62] := by decide
  split at hb
  · rw [hnil] at hb
    simp only [List.mem_cons, List.not_mem_nil, or_false] at hb
    rcases hb with rfl | rfl | rfl | rfl | rfl <;> exact ⟨by omega, by omega, by omega⟩
  · split at hb
    · exact dottedQuad_no_sep _ b hb
    · split at hb
      · simp only [List.mem_cons] at hb
        rcases hb with rfl | h
        · exact ⟨by omega, by omega, by omega⟩
        · exact hexDump_no_sep _ b h
      · exact ipv6String_no_sep _ b hb

/-- The v1 line is the space-join of its six tokens followed by CRLF. -/
theorem v1Format_eq_join (h : V1Header) :
    v1Format h =
      List.intercalate [32]
        [SIGV1,
         if h.transportProtocol = TCPv4 then chs ['T', 'C', 'P', '4']
         else if h.transportProtocol = TCPv6 then chs ['T', 'C', 'P', '6']
         else chs ['U', 'N', 'K', 'N', 'O', 'W', 'N'],
         ipString h.sourceAddress, ipString h.destinationAddress,
         itoa h.sourcePort, itoa h.destinationPort] ++ CRLF := by
  simp only [v1Format, List.intercalate, List.intersperse_cons_cons,
    List.intersperse_singleton, List.flatten_cons, List.flatten_nil,
    List.append_nil, List.append_assoc]

/-- Splitting the formatted v1 line (with its CRLF removed) on spaces recovers
exactly the six tokens. -/
theorem v1Format_tokens (h : V1Header) :
    ((v1Format h).take ((v1Format h).length - 2)).splitOn 32 =
      [SIGV1,
       if h.transportProtocol = TCPv4 then chs ['T', 'C', 'P', '4']
       else if h.transportProtocol = TCPv6 then chs ['T', 'C', 'P', '6']
       else chs ['U', 'N', 'K', 'N', 'O', 'W', 'N'],
       ipString h.sourceAddress, ipString h.destinationAddress,
       itoa h.sourcePort, itoa h.destinationPort] := by
  rw [v1Format_eq_join]
  have hlen : (List.intercalate [32]
      [SIGV1,
       if h.transportProtocol = TCPv4 then chs ['T', 'C', 'P', '4']
       else if h.transportProtocol = TCPv6 then chs ['T', 'C', 'P', '6']
       else chs ['U', 'N', 'K', 'N', 'O', 'W', 'N'],
       ipString h.sourceAddress, ipString h.destinationAddress,
       itoa h.sourcePort, itoa h.destinationPort] ++ CRLF).length - 2 =
      (List.intercalate [32]
      [SIGV1,
       if h.transportProtocol = TCPv4 then chs ['T', 'C', 'P', '4']
       else if h.transportProtocol = TCPv6 then chs ['T', 'C', 'P', '6']
       else chs ['U', 'N', 'K', 'N', 'O', 'W', 'N'],
       ipString h.sourceAddress, ipString h.destinationAddress,
       itoa h.sourcePort, itoa h.destinationPort]).length := by
    simp [CRLF]
  rw [hlen, List.take_left]
  apply List.splitOn_intercalate
  case hls => simp
  intro l hl
  simp only [List.mem_cons, List.not_mem_nil, or_false] at hl
  rcases hl with rfl | rfl | rfl | rfl | rfl | rfl
  · decide
  · split
    · decide
    · split <;> decide
  · exact fun hmem => (ipString_no_sep _ _ hmem).1 rfl
  · exact fun hmem => (ipString_no_sep _ _ hmem).1 rfl
  · exact fun hmem => by
      have := itoa_bounds _ _ hmem
      omega
  · exact fun hmem => by
      have := itoa_bounds _ _ hmem
      omega

/-- Claim C8 counterexample: for a header whose transport is not TCPv4/TCPv6
the writer does NOT produce the bare `PROXY UNKNOWN\r\n`; it still writes the
four address/port fields (`PROXY UNKNOWN <nil> <nil> 0 0\r\n` here). -/
theorem C8_counterexample :
    v1Format { command := LOCAL, transportProtocol := UNSPEC } =
      chs ['P', 'R', 'O', 'X', 'Y', ' ', 'U', 'N', 'K', 'N', 'O', 'W', 'N', ' ',
           '<', 'n', 'i', 'l', '>', ' ', '<', 'n', 'i', 'l', '>', ' ', '0', ' ', '0'] ++
        CRLF ∧
    v1Format { command := LOCAL, transportProtocol := UNSPEC } ≠
      chs ['P', 'R', 'O', 'X', 'Y', ' ', 'U', 'N', 'K', 'N', 'O', 'W', 'N'] ++ CRLF := by
  exact ⟨by decide, by decide⟩

/-- Claim C8 (corrected): for TCPv4/TCPv6 transports the v1 writer emits
exactly `PROXY <fam> <src-ip> <dst-ip> <src-port> <dst-port>\r\n`; for every
other transport protocol it emits `PROXY UNKNOWN <src> <dst> <sport>
<dport>\r\n` — the four fields are still present, never the bare
`PROXY UNKNOWN\r\n`.  In all cases the line splits back into exactly six
space-separated tokens. -/
theorem C8_v1_writer_output (h : V1Header) :
    (h.transportProtocol = TCPv4 →
      v1Format h = chs ['P', 'R', 'O', 'X', 'Y', ' ', 'T', 'C', 'P', '4', ' '] ++
        ipString h.sourceAddress ++ [32] ++ ipString h.destinationAddress ++ [32] ++
        itoa h.sourcePort ++ [32] ++ itoa h.destinationPort ++ CRLF) ∧
    (h.transportProtocol = TCPv6 →
      v1Format h = chs ['P', 'R', 'O', 'X', 'Y', ' ', 'T', 'C', 'P', '6', ' '] ++
        ipString h.sourceAddress ++ [32] ++ ipString h.destinationAddress ++ [32] ++
        itoa h.sourcePort ++ [32] ++ itoa h.destinationPort ++ CRLF) ∧
    (h.transportProtocol ≠ TCPv4 → h.transportProtocol ≠ TCPv6 →
      v1Format h = chs ['P', 'R', 'O', 'X', 'Y', ' ',
          'U', 'N', 'K', 'N', 'O', 'W', 'N', ' '] ++
        ipString h.sourceAddress ++ [32] ++ ipString h.destinationAddress ++ [32] ++
        itoa h.sourcePort ++ [32] ++ itoa h.destinationPort ++ CRLF) ∧
    ((v1Format h).take ((v1Format h).length - 2)).splitOn 32 =
      [SIGV1,
       if h.transportProtocol = TCPv4 then chs ['T', 'C', 'P', '4']
       else if h.transportProtocol = TCPv6 then chs ['T', 'C', 'P', '6']
       else chs ['U', 'N', 'K', 'N', 'O', 'W', 'N'],
       ipString h.sourceAddress, ipString h.destinationAddress,
       itoa h.sourcePort, itoa h.destinationPort] := by
  have hs : SIGV1 = [80, 82, 79, 88, 89] := by decide
  have hc4 : chs ['P', 'R', 'O', 'X', 'Y', ' ', 'T', 'C', 'P', '4', ' '] =
      [80, 82, 79, 88, 89, 32, 84, 67, 80, 52, 32] := by decide
  have hc6 : chs ['P', 'R', 'O', 'X', 'Y', ' ', 'T', 'C', 'P', '6', ' '] =
      [80, 82, 79, 88, 89, 32, 84, 67, 80, 54, 32] := by decide
  have hcu : chs ['P', 'R', 'O', 'X', 'Y', ' ',
      'U', 'N', 'K', 'N', 'O', 'W', 'N', ' '] =
      [80, 82, 79, 88, 89, 32, 85, 78, 75, 78, 79, 87, 78, 32] := by decide
  have ht4 : chs ['T', 'C', 'P', '4'] = [84, 67, 80, 52] := by decide
  have ht6 : chs ['T', 'C', 'P', '6'] = [84, 67, 80, 54] := by decide
  have htu : chs ['U', 'N', 'K', 'N', 'O', 'W', 'N'] =
      [85, 78, 75, 78, 79, 87, 78] := by decide
  refine ⟨fun h4 => ?_, fun h6 => ?_, fun h4 h6 => ?_, v1Format_tokens h⟩
  · simp [v1Format, h4, hs, hc4, ht4, TCPv4, List.append_assoc]
  · simp [v1Format, h6, hs, hc6, ht4, ht6, TCPv4, TCPv6, List.append_assoc]
  · simp [v1Format, h4, h6, hs, hcu, htu, List.append_assoc]

/-- The readTLVs loop never reaches the out-of-capacity case when the capacity
exceeds the slab length by at least two (as io.ReadAll guarantees), and its
result does not depend on the contents of the backing array past the slab. -/
theorem readTLVsLoop_safe (rest : List Nat) (cp : Nat) (mem mem2 : Nat → Nat)
    (hcap : rest.length + 2 ≤ cp) :
    ∀ k i acc, rest.length ≤ i + k →
      readTLVsLoop rest cp mem i acc ≠ .oob ∧
      readTLVsLoop rest cp mem i acc = readTLVsLoop rest cp mem2 i acc := by
  intro k
  induction k with
  | zero =>
    intro i acc hk
    rw [readTLVsLoop, readTLVsLoop]
    have : ¬ i < rest.length := by omega
    simp [this]
  | succ k ih =>
    intro i acc hk
    rw [readTLVsLoop, readTLVsLoop]
    by_cases hi : i < rest.length
    · have hcp : ¬ i + 3 > cp := by omega
      simp only [hi, dif_pos, hcp, if_false]
      by_cases h2 : i + 2 < rest.length
      · have h1 : i + 1 < rest.length := by omega
        simp only [h1, h2, if_true]
        split
        · refine ⟨?_, rfl⟩
          simp
        · exact ih _ _ (by omega)
      · -- fewer than three bytes remain: both runs report truncation,
        -- whatever the spare bytes hold
        have htr : ∀ m : Nat → Nat,
            i + 3 + be16 (if i + 1 < rest.length then rest.getD (i + 1) 0 else m (i + 1))
              (if i + 2 < rest.length then rest.getD (i + 2) 0 else m (i + 2)) >
              rest.length := by
          intro m
          have : rest.length < i + 3 := by omega
          have hbe : 0 ≤ be16 (if i + 1 < rest.length then rest.getD (i + 1) 0 else m (i + 1))
              (if i + 2 < rest.length then rest.getD (i + 2) 0 else m (i + 2)) := Nat.zero_le _
          omega
        rw [if_pos (htr mem), if_pos (htr mem2)]
        refine ⟨?_, rfl⟩
        simp
    · simp [hi]

/-- Claim C10 (confirmed): for every byte slab (with the capacity slack that
io.ReadAll always provides: cap ≥ len+2, spare bytes arbitrary), readTLVs
terminates with a TLV vector or an error — it never performs a slice access
beyond the capacity, and the spare bytes never influence the result.  Its
companion splitTLVs guards the same boundary explicitly. -/
theorem C10_readTLVs_total (rest : List Nat) (cp : Nat) (mem mem2 : Nat → Nat)
    (hcap : rest.length + 2 ≤ cp) :
    readTLVs rest cp mem ≠ .oob ∧
    readTLVs rest cp mem = readTLVs rest cp mem2 := by
  unfold readTLVs
  exact readTLVsLoop_safe rest cp mem mem2 hcap rest.length 0 [] (by omega)

/-- Witness for C10 at the one-byte slab 0xE1 (the repository's
fixtureOneByteTLV), with capacity 512 and zeroed spare bytes. -/
theorem C10_witness :
    (1 : Nat) + 2 ≤ 512 ∧
    (readTLVs [0xE1] 512 (fun _ => 0) ≠ .oob ∧
      readTLVs [0xE1] 512 (fun _ => 0) = readTLVs [0xE1] 512 (fun _ => 1)) ∧
    readTLVs [0xE1] 512 (fun _ => 0) = .err .truncatedTLV :=
  ⟨by decide, C10_readTLVs_total [0xE1] 512 (fun _ => 0) (fun _ => 1) (by decide),
    by simp [readTLVs, readTLVsLoop, be16]⟩

/-- A version sub-TLV with an empty or non-ASCII value, judged on the value
bytes (tlvparse/ssl.go). -/
def tlvBadVersionV (t : TLV) : Bool :=
  t.Typ == PP2_SUBTYPE_SSL_VERSION && (t.Value.length == 0 || !(isASCII t.Value))

/-- A CN sub-TLV with an empty or invalid-UTF-8 value, judged on the value
bytes (tlvparse/ssl.go). -/
def tlvBadCNV (t : TLV) : Bool :=
  t.Typ == PP2_SUBTYPE_SSL_CN && (t.Value.length == 0 || !(utf8Valid t.Value))

/-- A version sub-TLV with a zero declared Length or non-ASCII value
(policy.go). -/
def tlvBadVersionL (t : TLV) : Bool :=
  t.Typ == PP2_SUBTYPE_SSL_VERSION && (t.Length == 0 || !(isASCII t.Value))

/-- A CN sub-TLV with a zero declared Length or invalid-UTF-8 value
(policy.go). -/
def tlvBadCNL (t : TLV) : Bool :=
  t.Typ == PP2_SUBTYPE_SSL_CN && (t.Length == 0 || !(utf8Valid t.Value))

/-- The tlvparse sub-TLV loop fails exactly when some record is bad, and
otherwise reports whether a version sub-TLV occurred. -/
theorem sslSubLoop_spec (tlvs : List TLV) (vf : Bool) :
    Tlvparse.sslSubLoop tlvs vf =
      if tlvs.any (fun x => tlvBadVersionV x || tlvBadCNV x) then .error .malformedTLV
      else .ok (vf || tlvs.any (fun x => x.Typ == PP2_SUBTYPE_SSL_VERSION)) := by
  induction tlvs generalizing vf with
  | nil => simp [Tlvparse.sslSubLoop]
  | cons t rest ih =>
    rw [Tlvparse.sslSubLoop]
    split
    case isTrue hv =>
      split
      case isTrue hbad => simp_all [tlvBadVersionV, tlvBadCNV]
      case isFalse hbad =>
        rw [ih]
        simp_all [tlvBadVersionV, tlvBadCNV, PP2_SUBTYPE_SSL_VERSION, PP2_SUBTYPE_SSL_CN]
    case isFalse hv =>
      split
      case isTrue hc =>
        split
        case isTrue hbad => simp_all [tlvBadVersionV, tlvBadCNV]
        case isFalse hbad =>
          rw [ih]
          simp_all [tlvBadVersionV, tlvBadCNV, PP2_SUBTYPE_SSL_VERSION, PP2_SUBTYPE_SSL_CN]
      case isFalse hc =>
        rw [ih]
        have h1 : tlvBadVersionV t = false := by simp [tlvBadVersionV, hv]
        have h2 : tlvBadCNV t = false := by simp [tlvBadCNV, hc]
        have h3 : (t.Typ == PP2_SUBTYPE_SSL_VERSION) = false := by simp [hv]
        simp [h1, h2, h3]

/-- The policy.go sub-TLV loop additionally reports whether a CN sub-TLV
occurred. -/
theorem sslSubLoopPolicy_spec (tlvs : List TLV) (vf cf : Bool) :
    sslSubLoopPolicy tlvs vf cf =
      if tlvs.any (fun x => tlvBadVersionL x || tlvBadCNL x) then .error .malformedTLV
      else .ok (vf || tlvs.any (fun x => x.Typ == PP2_SUBTYPE_SSL_VERSION),
                cf || tlvs.any (fun x => x.Typ == PP2_SUBTYPE_SSL_CN)) := by
  induction tlvs generalizing vf cf with
  | nil => simp [sslSubLoopPolicy]
  | cons t rest ih =>
    rw [sslSubLoopPolicy]
    split
    case isTrue hv =>
      split
      case isTrue hbad => simp_all [tlvBadVersionL, tlvBadCNL]
      case isFalse hbad =>
        rw [ih]
        simp_all [tlvBadVersionL, tlvBadCNL, PP2_SUBTYPE_SSL_VERSION, PP2_SUBTYPE_SSL_CN]
    case isFalse hv =>
      split
      case isTrue hc =>
        split
        case isTrue hbad => simp_all [tlvBadVersionL, tlvBadCNL]
        case isFalse hbad =>
          rw [ih]
          simp_all [tlvBadVersionL, tlvBadCNL, PP2_SUBTYPE_SSL_VERSION, PP2_SUBTYPE_SSL_CN]
      case isFalse hc =>
        rw [ih]
        have h1 : tlvBadVersionL t = false := by simp [tlvBadVersionL, hv]
        have h2 : tlvBadCNL t = false := by simp [tlvBadCNL, hc]
        have h3 : (t.Typ == PP2_SUBTYPE_SSL_VERSION) = false := by simp [hv]
        have h4 : (t.Typ == PP2_SUBTYPE_SSL_CN) = false := by simp [hc]
        simp [h1, h2, h3, h4]

/-- Claim C9 counterexample: the SSL TLV `20 00 05 | 00 00000000` (client byte
0, verify 0, no sub-TLVs) has the ClientSSL bit clear and no CN sub-TLV at
all, so by the claim it must decode successfully — yet policy.go's TLV.SSL
method returns ErrMalformedTLV, because it unconditionally requires a CN
sub-TLV.  The tlvparse decoder accepts the same TLV. -/
theorem C9_counterexample :
    TLV.SSL { Typ := 0x20, Length := 5, Value := [0, 0, 0, 0, 0] } =
      .error .malformedTLV ∧
    PP2SSL.ClientSSL 0 = false ∧
    splitTLVs (List.drop 5 [0, 0, 0, 0, 0]) = .ok [] ∧
    Tlvparse.SSL { Typ := 0x20, Length := 5, Value := [0, 0, 0, 0, 0] } =
      .ok { Client := 0, Verify := 0, TLV := [] } := by
  refine ⟨?_, rfl, ?_, ?_⟩
  · simp [TLV.SSL, TLV.SSLType, tlvSSLMinLen, PP2_TYPE_SSL, splitTLVs, splitTLVsLoop,
      sslSubLoopPolicy, PP2SSL.ClientSSL, be32]
  · simp [splitTLVs, splitTLVsLoop]
  · simp [Tlvparse.SSL, Tlvparse.IsSSL, tlvSSLMinLen, PP2_TYPE_SSL, splitTLVs,
      splitTLVsLoop, Tlvparse.sslSubLoop, PP2SSL.ClientSSL, be32]

/-- Claim C9 (corrected): for an SSL TLV (type 0x20, length ≥ 5) whose sub-TLV
slab splits cleanly, the tlvparse decoder fails with ErrMalformedTLV exactly
when a version sub-TLV with an empty/non-ASCII value is present, a CN sub-TLV
with an empty/non-UTF-8 value is present, or the ClientSSL bit is set and no
version sub-TLV is present — the mere absence of a CN does not fail there.
The policy.go TLV.SSL method fails in all those cases AND additionally
whenever no CN sub-TLV is present at all. -/
theorem C9_ssl_validation (t : TLV) (tlvs : List TLV)
    (htyp : t.Typ = 0x20) (hlen : 5 ≤ t.Length) (hval : 5 ≤ t.Value.length)
    (hsplit : splitTLVs (t.Value.drop 5) = .ok tlvs) :
    (Tlvparse.SSL t = .error .malformedTLV ↔
      tlvs.any (fun x => tlvBadVersionV x || tlvBadCNV x) = true ∨
      (PP2SSL.ClientSSL (t.Value.getD 0 0) = true ∧
        tlvs.any (fun x => x.Typ == PP2_SUBTYPE_SSL_VERSION) = false)) ∧
    (TLV.SSL t = .error .malformedTLV ↔
      tlvs.any (fun x => tlvBadVersionL x || tlvBadCNL x) = true ∨
      (PP2SSL.ClientSSL (t.Value.getD 0 0) = true ∧
        tlvs.any (fun x => x.Typ == PP2_SUBTYPE_SSL_VERSION) = false) ∨
      tlvs.any (fun x => x.Typ == PP2_SUBTYPE_SSL_CN) = false) := by
  have hV : Tlvparse.IsSSL t = true := by
    simp [Tlvparse.IsSSL, htyp, PP2_TYPE_SSL, tlvSSLMinLen, hval]
  have hL : t.SSLType = true := by
    simp [TLV.SSLType, htyp, PP2_TYPE_SSL, tlvSSLMinLen, hlen]
  constructor
  · have hnl : ¬ t.Value.length < tlvSSLMinLen := by
      simp only [ tlvSSLMinLen]
      omega
    rw [Tlvparse.SSL, if_neg (by simp [hV]), if_neg hnl, hsplit]
    simp only [sslSubLoop_spec]
    by_cases hany : tlvs.any (fun x => tlvBadVersionV x || tlvBadCNV x) = true
    · simp [hany]
    · simp only [hany, if_false, Bool.not_eq_true] at *
      rw [if_neg (by simp [hany])]
      by_cases hbit : PP2SSL.ClientSSL (t.Value.getD 0 0) = true
      · by_cases hver : tlvs.any (fun x => x.Typ == PP2_SUBTYPE_SSL_VERSION) = true
        · simp [hbit, hver, hany]
        · simp only [Bool.not_eq_true] at hver
          simp [hbit, hver, hany]
      · simp only [Bool.not_eq_true] at hbit
        simp [hbit, hany]
  · have hnl : ¬ t.Length < tlvSSLMinLen := by
      simp only [ tlvSSLMinLen]
      omega
    rw [TLV.SSL, if_neg (by simp [hL]), if_neg hnl, hsplit]
    simp only [sslSubLoopPolicy_spec]
    by_cases hany : tlvs.any (fun x => tlvBadVersionL x || tlvBadCNL x) = true
    · simp [hany]
    · rw [if_neg (by simp [hany])]
      by_cases hbit : PP2SSL.ClientSSL (t.Value.getD 0 0) = true
      · by_cases hver : tlvs.any (fun x => x.Typ == PP2_SUBTYPE_SSL_VERSION) = true
        · by_cases hcn : tlvs.any (fun x => x.Typ == PP2_SUBTYPE_SSL_CN) = true
          · simp [hbit, hver, hcn, hany]
          · simp only [Bool.not_eq_true] at hcn
            simp [hbit, hver, hcn, hany]
        · simp only [Bool.not_eq_true] at hver
          have hbit2 : PP2SSL.ClientSSL (t.Value[0]?.getD 0) = true := by
            simpa [List.getD_eq_getElem?_getD] using hbit
          simp [hbit, hver, hany, hbit2]
      · simp only [Bool.not_eq_true] at hbit
        by_cases hcn : tlvs.any (fun x => x.Typ == PP2_SUBTYPE_SSL_CN) = true
        · simp [hbit, hcn, hany]
        · simp only [Bool.not_eq_true] at hcn
          simp [hbit, hcn, hany]

/-- Witness for C9: an SSL TLV with ClientSSL set, a valid version sub-TLV and
a valid CN sub-TLV; both characterizations evaluate concretely. -/
theorem C9_witness :
    (({ Typ := 0x20, Length := 14,
        Value := [1, 0, 0, 0, 0, 0x21, 0, 2, 49, 50, 0x22, 0, 1, 97] } : TLV).Typ = 0x20) ∧
    splitTLVs (List.drop 5 [1, 0, 0, 0, 0, 0x21, 0, 2, 49, 50, 0x22, 0, 1, 97]) =
      .ok [{ Typ := 0x21, Length := 2, Value := [49, 50] },
           { Typ := 0x22, Length := 1, Value := [97] }] ∧
    ((Tlvparse.SSL { Typ := 0x20, Length := 14,
                     Value := [1, 0, 0, 0, 0, 0x21, 0, 2, 49, 50, 0x22, 0, 1, 97] } =
          .error .malformedTLV ↔
      ([{ Typ := 0x21, Length := 2, Value := [49, 50] },
        { Typ := 0x22, Length := 1, Value := [97] }] : List TLV).any
          (fun x => tlvBadVersionV x || tlvBadCNV x) = true ∨
      (PP2SSL.ClientSSL (([1, 0, 0, 0, 0, 0x21, 0, 2, 49, 50, 0x22, 0, 1, 97] : List Nat).getD 0 0) = true ∧
        ([{ Typ := 0x21, Length := 2, Value := [49, 50] },
          { Typ := 0x22, Length := 1, Value := [97] }] : List TLV).any
            (fun x => x.Typ == PP2_SUBTYPE_SSL_VERSION) = false)) ∧
     (TLV.SSL { Typ := 0x20, Length := 14,
                Value := [1, 0, 0, 0, 0, 0x21, 0, 2, 49, 50, 0x22, 0, 1, 97] } =
          .error .malformedTLV ↔
      ([{ Typ := 0x21, Length := 2, Value := [49, 50] },
        { Typ := 0x22, Length := 1, Value := [97] }] : List TLV).any
          (fun x => tlvBadVersionL x || tlvBadCNL x) = true ∨
      (PP2SSL.ClientSSL (([1, 0, 0, 0, 0, 0x21, 0, 2, 49, 50, 0x22, 0, 1, 97] : List Nat).getD 0 0) = true ∧
        ([{ Typ := 0x21, Length := 2, Value := [49, 50] },
          { Typ := 0x22, Length := 1, Value := [97] }] : List TLV).any
            (fun x => x.Typ == PP2_SUBTYPE_SSL_VERSION) = false) ∨
      ([{ Typ := 0x21, Length := 2, Value := [49, 50] },
        { Typ := 0x22, Length := 1, Value := [97] }] : List TLV).any
          (fun x => x.Typ == PP2_SUBTYPE_SSL_CN) = false)) := by
  refine ⟨rfl, ?_, ?_⟩
  · simp [splitTLVs, splitTLVsLoop, be16, PP2_TYPE_NOOP]
  · exact C9_ssl_validation _ _ rfl (by decide) (by decide)
      (by simp [splitTLVs, splitTLVsLoop, be16, PP2_TYPE_NOOP])

/-- Witness for C8 at a concrete TCPv4 header and a concrete UNSPEC header. -/
theorem C8_witness :
    v1Format { command := PROXY, transportProtocol := TCPv4,
               sourceAddress := [127, 0, 0, 1], destinationAddress := [10, 0, 0, 1],
               sourcePort := 8080, destinationPort := 443 } =
      chs ['P', 'R', 'O', 'X', 'Y', ' ', 'T', 'C', 'P', '4', ' '] ++
        ipString [127, 0, 0, 1] ++ [32] ++ ipString [10, 0, 0, 1] ++ [32] ++
        itoa 8080 ++ [32] ++ itoa 443 ++ CRLF ∧
    v1Format { command := LOCAL, transportProtocol := UNSPEC } =
      chs ['P', 'R', 'O', 'X', 'Y', ' ', 'U', 'N', 'K', 'N', 'O', 'W', 'N', ' '] ++
        ipString [] ++ [32] ++ ipString [] ++ [32] ++ itoa 0 ++ [32] ++ itoa 0 ++ CRLF := by
  constructor
  · exact (C8_v1_writer_output _).1 rfl
  · exact (C8_v1_writer_output
      { command := LOCAL, transportProtocol := UNSPEC }).2.2.1 (by decide) (by decide)

/- ----------------------------------------------------------------
   Claim C1: codec round-trip.
   ---------------------------------------------------------------- -/


/-- Folding decimal digits most-significant-first rebuilds the value. -/
theorem foldl_rev_digits (l : List Nat) (a : Nat) :
    l.reverse.foldl (fun acc d => acc * 10 + d) a = a * 10 ^ l.length + Nat.ofDigits 10 l := by
  induction l generalizing a with
  | nil => simp
  | cons d t ih =>
    simp only [List.reverse_cons, List.foldl_append, ih, Nat.ofDigits_cons,
      List.foldl_cons, List.foldl_nil, List.length_cons]
    ring

/-- The fold used by atoi inverts itoa. -/
theorem foldl_itoa (n : Nat) :
    (itoa n).foldl (fun acc d => acc * 10 + (d - 48)) 0 = n := by
  unfold itoa
  split
  · simp [*]
  · rw [List.foldl_map]
    have : ∀ (acc d : Nat), acc * 10 + (48 + d - 48) = acc * 10 + d := by omega
    simp only [this]
    rw [foldl_rev_digits]
    simp [Nat.ofDigits_digits]

/-- A decimal rendering is never empty. -/
theorem itoa_ne_nil (n : Nat) : itoa n ≠ [] := by
  unfold itoa
  split
  · simp
  · simp [Nat.digits_ne_nil_iff_ne_zero, *]

/-- Every byte of a decimal rendering is an ASCII digit. -/
theorem itoa_all_digit (n : Nat) : (itoa n).all isDigit = true := by
  rw [List.all_eq_true]
  intro b hb
  have := itoa_bounds n b hb
  simp [isDigit]
  omega

/-- strconv.Atoi inverts strconv.Itoa on 16-bit values. -/
theorem atoi_itoa (n : Nat) (h : n < 65536) : atoi (itoa n) = .ok (n : Int) := by
  unfold atoi
  obtain ⟨hd, tl, heq⟩ : ∃ hd tl, itoa n = hd :: tl := by
    cases hx : itoa n with
    | nil => exact absurd hx (itoa_ne_nil n)
    | cons a b => exact ⟨a, b, rfl⟩
  have hhd : 48 ≤ hd ∧ hd ≤ 57 := itoa_bounds n hd (by rw [heq]; simp)
  rw [heq]
  split
  · rename_i t ht
    injection ht with h1 h2
    omega
  · rename_i t ht
    injection ht with h1 h2
    omega
  · rw [← heq]
    simp only [itoa_ne_nil n, if_false, itoa_all_digit n, if_true, foldl_itoa n]
    rw [if_neg (by push_cast; omega)]
    simp

/-- The v1 port parser inverts the decimal rendering of an in-range port. -/
theorem parseV1PortNumber_itoa (n : Nat) (h : n < 65536) :
    parseV1PortNumber (itoa n) = (n, none) := by
  unfold parseV1PortNumber
  rw [atoi_itoa n h]
  simp [uint16OfInt]
  omega

/-- A byte value has at most three decimal digits. -/
theorem itoa_len_le (a : Nat) (h : a ≤ 255) : (itoa a).length ≤ 3 := by
  unfold itoa
  split
  · simp
  · rename_i ha
    simp only [List.length_map, List.length_reverse]
    rw [Nat.digits_len 10 a (by norm_num) ha]
    have := Nat.log_lt_of_lt_pow (b := 10) (x := 3) ha (by omega)
    omega

/-- A multi-digit decimal rendering has no leading zero. -/
theorem itoa_head_ne_zero (a : Nat) (h : (itoa a).length > 1) :
    (itoa a).head? ≠ some 48 := by
  by_cases ha : a = 0
  · subst ha
    simp [itoa] at h
  · unfold itoa
    rw [if_neg ha]
    rw [List.head?_map]
    cases hx : (Nat.digits 10 a).reverse.head? with
    | none => simp
    | some d =>
      have hd : d ∈ (Nat.digits 10 a).reverse := List.mem_of_mem_head? hx
      rw [List.head?_reverse] at hx
      have hlast : d ≠ 0 := by
        have h0 := Nat.getLast_digit_ne_zero 10 ha
        have : (Nat.digits 10 a).getLast? = some ((Nat.digits 10 a).getLast
            (Nat.digits_ne_nil_iff_ne_zero.mpr ha)) := List.getLast?_eq_getLast _ _
        rw [this] at hx
        injection hx with hx2
        rw [← hx2]
        exact h0
      simp
      omega

/-- One dotted-quad field parses back to the byte it rendered. -/
theorem v4FieldVal_itoa (a : Nat) (h : a ≤ 255) : v4FieldVal (itoa a) = some a := by
  unfold v4FieldVal
  rw [if_pos, foldl_itoa, if_pos h]
  refine ⟨itoa_ne_nil a, ?_, itoa_len_le a h, fun hl => itoa_head_ne_zero a hl⟩
  rw [itoa_all_digit a]

/-- Splitting a dotted quad on dots recovers the rendered fields. -/
theorem splitOn_dottedQuad (q : List Nat) (hq : q ≠ []) :
    (dottedQuad q).splitOn 46 = q.map itoa := by
  unfold dottedQuad
  apply List.splitOn_intercalate
  · intro l hl
    simp only [List.mem_map] at hl
    obtain ⟨d, _, rfl⟩ := hl
    intro hmem
    have := itoa_bounds d 46 hmem
    omega
  · simpa using hq

/-- The stdlib IPv4 literal parser inverts the dotted-quad printer. -/
theorem parseIPv4Fields_dottedQuad (a b c d : Nat)
    (ha : a ≤ 255) (hb : b ≤ 255) (hc : c ≤ 255) (hd : d ≤ 255) :
    parseIPv4Fields (dottedQuad [a, b, c, d]) = some [a, b, c, d] := by
  unfold parseIPv4Fields
  simp only [splitOn_dottedQuad [a, b, c, d] (by simp), List.map_cons, List.map_nil]
  simp [splitOn_dottedQuad [a, b, c, d] (by simp), v4FieldVal_itoa, ha, hb, hc, hd]

/-- The ParseIP dispatch finds the dot of a dotted quad first. -/
theorem parseIPDispatch_digits_dot (l r : List Nat) (hl : ∀ x ∈ l, isDigit x) :
    parseIP.parseIPDispatch (l ++ 46 :: r) = some true := by
  induction l with
  | nil => simp [parseIP.parseIPDispatch]
  | cons x t ih =>
    have hx := hl x (by simp)
    simp only [isDigit, Bool.and_eq_true, decide_eq_true_eq] at hx
    obtain ⟨hx1, hx2⟩ := hx
    interval_cases x <;>
      simpa [parseIP.parseIPDispatch] using ih (fun y hy => hl y (by simp [hy]))

/-- A four-field dotted quad, written as nested appends. -/
theorem dottedQuad_expand (a b c d : Nat) :
    dottedQuad [a, b, c, d] =
      itoa a ++ 46 :: (itoa b ++ 46 :: (itoa c ++ 46 :: itoa d)) := by
  simp [dottedQuad, List.intercalate, List.intersperse]

/-- net.ParseIP on a dotted quad yields the 16-byte mapped form. -/
theorem parseIP_dottedQuad (a b c d : Nat)
    (ha : a ≤ 255) (hb : b ≤ 255) (hc : c ≤ 255) (hd : d ≤ 255) :
    parseIP (dottedQuad [a, b, c, d]) = v4InV6Prefix ++ [a, b, c, d] := by
  unfold parseIP
  have hdisp : parseIP.parseIPDispatch (dottedQuad [a, b, c, d]) = some true := by
    rw [dottedQuad_expand]
    refine parseIPDispatch_digits_dot _ _ (fun x hx => ?_)
    have := itoa_bounds a x hx
    simp [isDigit]
    omega
  rw [hdisp, parseIPv4Fields_dottedQuad a b c d ha hb hc hd]

/-- net.IP.String prints a 4-byte address as a dotted quad. -/
theorem ipString_len4 (q : List Nat) (h : q.length = 4) : ipString q = dottedQuad q := by
  unfold ipString
  rw [if_neg (by intro h0; rw [h0] at h; simp at h)]
  simp [to4, h]

/-- The v1 address parser accepts a dotted quad under TCP4. -/
theorem parseV1IPAddress_dq (a b c d : Nat)
    (ha : a ≤ 255) (hb : b ≤ 255) (hc : c ≤ 255) (hd : d ≤ 255) :
    parseV1IPAddress TCPv4 (dottedQuad [a, b, c, d]) =
      (v4InV6Prefix ++ [a, b, c, d], none) := by
  unfold parseV1IPAddress
  rw [parseIP_dottedQuad a b c d ha hb hc hd]
  have hto4 : to4 (v4InV6Prefix ++ [a, b, c, d]) = [a, b, c, d] := by
    simp [to4, v4InV6Prefix]
  simp [hto4, TCPv4, TCPv6]

/-- The v1 line body contains no line feed before the CRLF. -/
theorem v1Format_no_lf (h : V1Header) :
    10 ∉ List.intercalate [32]
      [SIGV1,
       if h.transportProtocol = TCPv4 then chs ['T', 'C', 'P', '4']
       else if h.transportProtocol = TCPv6 then chs ['T', 'C', 'P', '6']
       else chs ['U', 'N', 'K', 'N', 'O', 'W', 'N'],
       ipString h.sourceAddress, ipString h.destinationAddress,
       itoa h.sourcePort, itoa h.destinationPort] := by
  intro hb
  rcases mem_intercalate_sep 32 _ 10 hb with h32 | ⟨l, hl, hbl⟩
  · omega
  · simp only [List.mem_cons, List.not_mem_nil, or_false] at hl
    rcases hl with rfl | rfl | rfl | rfl | rfl | rfl
    · revert hbl
      decide
    · revert hbl
      split
      · decide
      · split
        · decide
        · decide
    · exact (ipString_no_sep _ 10 hbl).2.2 rfl
    · exact (ipString_no_sep _ 10 hbl).2.2 rfl
    · have := itoa_bounds _ 10 hbl
      omega
    · have := itoa_bounds _ 10 hbl
      omega

/-- ReadString on a formatted v1 line consumes exactly the line. -/
theorem readUntil_v1Format (h : V1Header) :
    (⟨v1Format h, 0⟩ : Reader).readUntil 10 =
      (v1Format h, ⟨v1Format h, (v1Format h).length⟩) := by
  unfold Reader.readUntil
  simp only [Reader.rest, List.drop_zero]
  have hidx : (v1Format h).indexOf 10 = (v1Format h).length - 1 := by
    rw [v1Format_eq_join h]
    have h1 : CRLF = [13, 10] := rfl
    rw [h1, List.indexOf_append_of_not_mem (v1Format_no_lf h)]
    simp [List.indexOf_cons]
  rw [hidx]
  have hlen : 1 ≤ (v1Format h).length := by
    rw [v1Format_eq_join h]
    simp [CRLF]
  rw [Nat.sub_add_cancel hlen, Nat.min_self, List.take_length]
  simp

/-- A formatted v1 line ends in CRLF. -/
theorem isSuffixOf_CRLF_v1Format (h : V1Header) :
    CRLF.isSuffixOf (v1Format h) = true := by
  rw [v1Format_eq_join h]
  have h1 : CRLF = [13, 10] := rfl
  rw [h1]
  simp [List.isSuffixOf, List.isPrefixOf, List.reverse_append]

/-- A list of length four is literally four elements. -/
theorem list_len4 {l : List Nat} (h : l.length = 4) :
    ∃ a b c d : Nat, l = [a, b, c, d] := by
  match l, h with
  | [a, b, c, d], _ => exact ⟨a, b, c, d, rfl⟩

set_option maxHeartbeats 2000000 in
/-- parseVersion1 inverts Format on a TCP4 header, up to the mapped 16-byte address form and the command forced to PROXY. -/
theorem parseVersion1_v1Format_tcp4 (v1h : V1Header)
    (htp : v1h.transportProtocol = TCPv4)
    (hsl : v1h.sourceAddress.length = 4)
    (hsb : ∀ x ∈ v1h.sourceAddress, x ≤ 255)
    (hdl : v1h.destinationAddress.length = 4)
    (hdb : ∀ x ∈ v1h.destinationAddress, x ≤ 255)
    (hsp : v1h.sourcePort < 65536) (hdp : v1h.destinationPort < 65536) :
    parseVersion1 ⟨v1Format v1h, 0⟩ =
      (.ok { command := PROXY, transportProtocol := TCPv4,
             sourceAddress := v4InV6Prefix ++ v1h.sourceAddress,
             destinationAddress := v4InV6Prefix ++ v1h.destinationAddress,
             sourcePort := v1h.sourcePort, destinationPort := v1h.destinationPort },
       ⟨v1Format v1h, (v1Format v1h).length⟩) := by
  obtain ⟨a, b, c, d, hsa⟩ := list_len4 hsl
  obtain ⟨e, f, g, i, hda⟩ := list_len4 hdl
  have hru := readUntil_v1Format v1h
  have hsuf := isSuffixOf_CRLF_v1Format v1h
  have htok := v1Format_tokens v1h
  rw [if_pos htp] at htok
  generalize hL : v1Format v1h = L at hru hsuf htok ⊢
  unfold parseVersion1
  rw [hru]
  simp only []
  rw [hsuf]
  simp only [not_true_eq_false, if_false, Bool.not_true]
  rw [htok]
  simp only [List.length_cons, List.length_nil, List.getD_cons_succ, List.getD_cons_zero,
    if_true]
  rw [if_neg (by omega)]
  have hsb4 : a ≤ 255 ∧ b ≤ 255 ∧ c ≤ 255 ∧ d ≤ 255 := by
    refine ⟨hsb a ?_, hsb b ?_, hsb c ?_, hsb d ?_⟩ <;> rw [hsa] <;> simp
  have hdb4 : e ≤ 255 ∧ f ≤ 255 ∧ g ≤ 255 ∧ i ≤ 255 := by
    refine ⟨hdb e ?_, hdb f ?_, hdb g ?_, hdb i ?_⟩ <;> rw [hda] <;> simp
  rw [hsa, hda, ipString_len4 _ (by simp), ipString_len4 _ (by simp),
    parseV1IPAddress_dq a b c d hsb4.1 hsb4.2.1 hsb4.2.2.1 hsb4.2.2.2,
    parseV1IPAddress_dq e f g i hdb4.1 hdb4.2.1 hdb4.2.2.1 hdb4.2.2.2,
    parseV1PortNumber_itoa _ hsp, parseV1PortNumber_itoa _ hdp]
  simp [initVersion1]

/-- The v1 Format output decomposed after its signature. -/
theorem v1Format_decomp (h : V1Header) :
    v1Format h = SIGV1 ++ ([32] ++
      ((if h.transportProtocol = TCPv4 then chs ['T', 'C', 'P', '4']
        else if h.transportProtocol = TCPv6 then chs ['T', 'C', 'P', '6']
        else chs ['U', 'N', 'K', 'N', 'O', 'W', 'N']) ++ ([32] ++
        (ipString h.sourceAddress ++ ([32] ++ (ipString h.destinationAddress ++ ([32] ++
          (itoa h.sourcePort ++ ([32] ++ (itoa h.destinationPort ++ CRLF)))))))))) := by
  simp [v1Format, List.append_assoc]

/-- Read dispatches a formatted TCP4 v1 line to parseVersion1 and inverts it up to the mapped address form. -/
theorem Read_v1Format_tcp4 (v1h : V1Header)
    (htp : v1h.transportProtocol = TCPv4)
    (hsl : v1h.sourceAddress.length = 4)
    (hsb : ∀ x ∈ v1h.sourceAddress, x ≤ 255)
    (hdl : v1h.destinationAddress.length = 4)
    (hdb : ∀ x ∈ v1h.destinationAddress, x ≤ 255)
    (hsp : v1h.sourcePort < 65536) (hdp : v1h.destinationPort < 65536) :
    Read ⟨v1Format v1h, 0⟩ =
      (.ok (.v1 { command := PROXY, transportProtocol := TCPv4,
                  sourceAddress := v4InV6Prefix ++ v1h.sourceAddress,
                  destinationAddress := v4InV6Prefix ++ v1h.destinationAddress,
                  sourcePort := v1h.sourcePort,
                  destinationPort := v1h.destinationPort }),
       ⟨v1Format v1h, (v1Format v1h).length⟩) := by
  have hlen : 5 ≤ (v1Format v1h).length := by
    rw [v1Format_decomp]
    simp [SIGV1, chs]
  have htk1 : (v1Format v1h).take 1 = [80] := by
    rw [v1Format_decomp]
    rfl
  have htk5 : (v1Format v1h).take 5 = SIGV1 := by
    rw [v1Format_decomp]
    rfl
  have hp1 : (⟨v1Format v1h, 0⟩ : Reader).peek 1 = some [80] := by
    simp only [Reader.peek, Reader.rest]
    rw [if_pos (by omega)]
    simp [htk1]
  have hp5 : (⟨v1Format v1h, 0⟩ : Reader).peek 5 = some SIGV1 := by
    simp only [Reader.peek, Reader.rest]
    rw [if_pos (by omega)]
    simp [htk5]
  unfold Read peekIs
  rw [hp1, hp5,
    parseVersion1_v1Format_tcp4 v1h htp hsl hsb hdl hdb hsp hdp]
  simp [SIGV1]

/-- The v2 TLV loop on a zero remainder touches nothing. -/
theorem parseVersion2Tlv_zero (h : V2Header) (r : Reader) :
    parseVersion2Tlv h r 0 = (h, r, none) := by
  show parseVersion2TlvLoop 4 h r 0 = (h, r, none)
  rw [parseVersion2TlvLoop]
  simp

/-- The v2 Format bytes of a PROXY header with an IPv4 family. -/
theorem v2Format_ipv4_data (tp sp dp a b c d e f g i : Nat)
    (h4 : isIPv4Family tp = true) :
    v2Format { hdr := { command := PROXY, transportProtocol := tp,
                        sourceAddress := [a, b, c, d],
                        destinationAddress := [e, f, g, i],
                        sourcePort := sp, destinationPort := dp } } =
      [13, 10, 13, 10, 0, 13, 10, 81, 85, 73, 84, 10,
       0x21, tp, 0, 12, a, b, c, d, e, f, g, i,
       sp / 256 % 256, sp % 256, dp / 256 % 256, dp % 256] := by
  simp [v2Format, SIGV2, putUint16, isLocalCmd, h4, to4, PROXY, LOCAL]

set_option maxRecDepth 4000 in
/-- Read inverts the v2 Format exactly for a PROXY header with an IPv4 family, 4-byte addresses and 16-bit ports, consuming all 28 bytes. -/
theorem Read_v2Format_ipv4 (tp sp dp a b c d e f g i : Nat)
    (htp : tp = TCPv4 ∨ tp = UDPv4) (hsp : sp < 65536) (hdp : dp < 65536) :
    Read ⟨v2Format { hdr := { command := PROXY, transportProtocol := tp,
                              sourceAddress := [a, b, c, d],
                              destinationAddress := [e, f, g, i],
                              sourcePort := sp, destinationPort := dp } }, 0⟩ =
      (.ok (.v2 { hdr := { command := PROXY, transportProtocol := tp,
                           sourceAddress := [a, b, c, d],
                           destinationAddress := [e, f, g, i],
                           sourcePort := sp, destinationPort := dp } }),
       ⟨v2Format { hdr := { command := PROXY, transportProtocol := tp,
                            sourceAddress := [a, b, c, d],
                            destinationAddress := [e, f, g, i],
                            sourcePort := sp, destinationPort := dp } },
        28⟩) := by
  have h4 : isIPv4Family tp = true := by
    rcases htp with rfl | rfl <;> decide
  have hsup : supportedTransportProtocol tp = true := by
    rcases htp with rfl | rfl <;> decide
  rw [v2Format_ipv4_data tp sp dp a b c d e f g i h4]
  simp [Read, peekIs, Reader.peek, Reader.rest, Reader.readFull, Reader.readByte,
    Reader.avail, parseVersion2, parseVersion2Tlv_zero, isLocalCmd, h4, hsup,
    supportedCommand, validateLength, be16, PROXY, LOCAL, SIGV1, SIGV2, chs]
  omega

/-- The v2 Format bytes of a PROXY header with an IPv6 family. -/
theorem v2Format_ipv6_data (tp sp dp : Nat) (s0 s1 s2 s3 s4 s5 s6 s7 s8 s9 s10 s11 s12 s13 s14 s15 : Nat)
    (d0 d1 d2 d3 d4 d5 d6 d7 d8 d9 d10 d11 d12 d13 d14 d15 : Nat)
    (h6 : isIPv6Family tp = true) (h4 : isIPv4Family tp = false) :
    v2Format { hdr := { command := PROXY, transportProtocol := tp,
                        sourceAddress := [s0, s1, s2, s3, s4, s5, s6, s7, s8, s9, s10, s11, s12, s13, s14, s15],
                        destinationAddress := [d0, d1, d2, d3, d4, d5, d6, d7, d8, d9, d10, d11, d12, d13, d14, d15],
                        sourcePort := sp, destinationPort := dp } } =
      [13, 10, 13, 10, 0, 13, 10, 81, 85, 73, 84, 10,
       0x21, tp, 0, 36, s0, s1, s2, s3, s4, s5, s6, s7, s8, s9, s10, s11, s12, s13, s14, s15,
       d0, d1, d2, d3, d4, d5, d6, d7, d8, d9, d10, d11, d12, d13, d14, d15,
       sp / 256 % 256, sp % 256, dp / 256 % 256, dp % 256] := by
  simp [v2Format, SIGV2, putUint16, isLocalCmd, h6, h4, to16, PROXY, LOCAL]

set_option maxRecDepth 8000 in
/-- Read inverts the v2 Format exactly for a PROXY header with an IPv6 family, 16-byte addresses and 16-bit ports, consuming all 52 bytes. -/
theorem Read_v2Format_ipv6 (tp sp dp : Nat) (s0 s1 s2 s3 s4 s5 s6 s7 s8 s9 s10 s11 s12 s13 s14 s15 : Nat)
    (d0 d1 d2 d3 d4 d5 d6 d7 d8 d9 d10 d11 d12 d13 d14 d15 : Nat)
    (htp : tp = TCPv6 ∨ tp = UDPv6) (hsp : sp < 65536) (hdp : dp < 65536) :
    Read ⟨v2Format { hdr := { command := PROXY, transportProtocol := tp,
                              sourceAddress := [s0, s1, s2, s3, s4, s5, s6, s7, s8, s9, s10, s11, s12, s13, s14, s15],
                              destinationAddress := [d0, d1, d2, d3, d4, d5, d6, d7, d8, d9, d10, d11, d12, d13, d14, d15],
                              sourcePort := sp, destinationPort := dp } }, 0⟩ =
      (.ok (.v2 { hdr := { command := PROXY, transportProtocol := tp,
                           sourceAddress := [s0, s1, s2, s3, s4, s5, s6, s7, s8, s9, s10, s11, s12, s13, s14, s15],
                           destinationAddress := [d0, d1, d2, d3, d4, d5, d6, d7, d8, d9, d10, d11, d12, d13, d14, d15],
                           sourcePort := sp, destinationPort := dp } }),
       ⟨v2Format { hdr := { command := PROXY, transportProtocol := tp,
                            sourceAddress := [s0, s1, s2, s3, s4, s5, s6, s7, s8, s9, s10, s11, s12, s13, s14, s15],
                            destinationAddress := [d0, d1, d2, d3, d4, d5, d6, d7, d8, d9, d10, d11, d12, d13, d14, d15],
                            sourcePort := sp, destinationPort := dp } },
        52⟩) := by
  have h6 : isIPv6Family tp = true := by
    rcases htp with rfl | rfl <;> decide
  have h4 : isIPv4Family tp = false := by
    rcases htp with rfl | rfl <;> decide
  have hsup : supportedTransportProtocol tp = true := by
    rcases htp with rfl | rfl <;> decide
  rw [v2Format_ipv6_data tp sp dp s0 s1 s2 s3 s4 s5 s6 s7 s8 s9 s10 s11 s12 s13 s14 s15
    d0 d1 d2 d3 d4 d5 d6 d7 d8 d9 d10 d11 d12 d13 d14 d15 h6 h4]
  simp [Read, peekIs, Reader.peek, Reader.rest, Reader.readFull, Reader.readByte,
    Reader.avail, parseVersion2, parseVersion2Tlv_zero, isLocalCmd, h4, h6, hsup,
    supportedCommand, validateLength, be16, PROXY, LOCAL, SIGV1, SIGV2, chs]
  omega

/-- A list of length sixteen is literally sixteen elements. -/
theorem list_len16 {l : List Nat} (h : l.length = 16) :
    ∃ x0 x1 x2 x3 x4 x5 x6 x7 x8 x9 x10 x11 x12 x13 x14 x15 : Nat,
      l = [x0, x1, x2, x3, x4, x5, x6, x7, x8, x9, x10, x11, x12, x13, x14, x15] := by
  match l, h with
  | [x0, x1, x2, x3, x4, x5, x6, x7, x8, x9, x10, x11, x12, x13, x14, x15], _ =>
    exact ⟨x0, x1, x2, x3, x4, x5, x6, x7, x8, x9, x10, x11, x12, x13, x14, x15, rfl⟩

/-- net.IP.Equal identifies a 4-byte address with its mapped 16-byte form. -/
theorem ipEqual_mapped (q : List Nat) (h : q.length = 4) :
    ipEqual (v4InV6Prefix ++ q) q = true := by
  obtain ⟨a, b, c, d, rfl⟩ := list_len4 h
  simp [ipEqual, v4InV6Prefix]

/-- Claim C1 (corrected): the round-trip parse(write(H)) = H does not hold for
all valid headers, but it does hold on this domain: (1) the default v2 LOCAL
header round-trips through Read in 13 bytes; (2) every v2 PROXY header with a
TCP/UDP IPv4 or IPv6 family, address bytes of the family's length, 16-bit
ports and no TLV fields round-trips through Read to an equal header with the
whole output consumed (the old formatter never writes TLVs, so headers with
TLV fields cannot round-trip); (3) every v1 TCP4 header with command PROXY,
4-byte in-range addresses and 16-bit ports round-trips to a header that is
equal except that the addresses come back in net.ParseIP's mapped 16-byte
form — equal under net.IP.Equal but not byte-identical.  v1 LOCAL headers do
not round-trip at all (see the counterexample). -/
theorem C1_roundtrip_amended :
    (Read ⟨v2Format { hdr := { command := LOCAL } }, 0⟩ =
      (.ok (.v2 { hdr := { command := LOCAL } }),
       ⟨v2Format { hdr := { command := LOCAL } }, 13⟩)) ∧
    (∀ h : V1Header, h.command = PROXY →
      (h.transportProtocol = TCPv4 ∨ h.transportProtocol = UDPv4 ∨
       h.transportProtocol = TCPv6 ∨ h.transportProtocol = UDPv6) →
      h.sourceAddress.length = (if isIPv4Family h.transportProtocol then 4 else 16) →
      h.destinationAddress.length = (if isIPv4Family h.transportProtocol then 4 else 16) →
      h.sourcePort < 65536 → h.destinationPort < 65536 →
      Read ⟨v2Format { hdr := h }, 0⟩ =
        (.ok (.v2 { hdr := h }),
         ⟨v2Format { hdr := h }, (v2Format { hdr := h }).length⟩)) ∧
    (∀ h : V1Header, h.command = PROXY → h.transportProtocol = TCPv4 →
      h.sourceAddress.length = 4 → (∀ x ∈ h.sourceAddress, x ≤ 255) →
      h.destinationAddress.length = 4 → (∀ x ∈ h.destinationAddress, x ≤ 255) →
      h.sourcePort < 65536 → h.destinationPort < 65536 →
      Read ⟨v1Format h, 0⟩ =
        (.ok (.v1 { h with sourceAddress := v4InV6Prefix ++ h.sourceAddress,
                           destinationAddress := v4InV6Prefix ++ h.destinationAddress }),
         ⟨v1Format h, (v1Format h).length⟩) ∧
      ipEqual (v4InV6Prefix ++ h.sourceAddress) h.sourceAddress = true ∧
      ipEqual (v4InV6Prefix ++ h.destinationAddress) h.destinationAddress = true) := by
  refine ⟨by rfl, ?_, ?_⟩
  · rintro ⟨cmd, tp, sa, da, sp, dp⟩ hcmd htp hsl hdl hsp hdp
    simp only at hcmd hsl hdl hsp hdp
    subst hcmd
    rcases htp with rfl | rfl | rfl | rfl
    · rw [if_pos (by decide)] at hsl hdl
      obtain ⟨a, b, c, d, rfl⟩ := list_len4 hsl
      obtain ⟨e, f, g, i, rfl⟩ := list_len4 hdl
      have hres := Read_v2Format_ipv4 TCPv4 sp dp a b c d e f g i (Or.inl rfl) hsp hdp
      rw [hres]
      rw [v2Format_ipv4_data TCPv4 sp dp a b c d e f g i (by decide)]
      rfl
    · rw [if_pos (by decide)] at hsl hdl
      obtain ⟨a, b, c, d, rfl⟩ := list_len4 hsl
      obtain ⟨e, f, g, i, rfl⟩ := list_len4 hdl
      have hres := Read_v2Format_ipv4 UDPv4 sp dp a b c d e f g i (Or.inr rfl) hsp hdp
      rw [hres]
      rw [v2Format_ipv4_data UDPv4 sp dp a b c d e f g i (by decide)]
      rfl
    · rw [if_neg (by decide)] at hsl hdl
      obtain ⟨s0, s1, s2, s3, s4, s5, s6, s7, s8, s9, s10, s11, s12, s13, s14, s15, rfl⟩ :=
        list_len16 hsl
      obtain ⟨d0, d1, d2, d3, d4, d5, d6, d7, d8, d9, d10, d11, d12, d13, d14, d15, rfl⟩ :=
        list_len16 hdl
      have hres := Read_v2Format_ipv6 TCPv6 sp dp
        s0 s1 s2 s3 s4 s5 s6 s7 s8 s9 s10 s11 s12 s13 s14 s15
        d0 d1 d2 d3 d4 d5 d6 d7 d8 d9 d10 d11 d12 d13 d14 d15 (Or.inl rfl) hsp hdp
      rw [hres]
      rw [v2Format_ipv6_data TCPv6 sp dp
        s0 s1 s2 s3 s4 s5 s6 s7 s8 s9 s10 s11 s12 s13 s14 s15
        d0 d1 d2 d3 d4 d5 d6 d7 d8 d9 d10 d11 d12 d13 d14 d15 (by decide) (by decide)]
      rfl
    · rw [if_neg (by decide)] at hsl hdl
      obtain ⟨s0, s1, s2, s3, s4, s5, s6, s7, s8, s9, s10, s11, s12, s13, s14, s15, rfl⟩ :=
        list_len16 hsl
      obtain ⟨d0, d1, d2, d3, d4, d5, d6, d7, d8, d9, d10, d11, d12, d13, d14, d15, rfl⟩ :=
        list_len16 hdl
      have hres := Read_v2Format_ipv6 UDPv6 sp dp
        s0 s1 s2 s3 s4 s5 s6 s7 s8 s9 s10 s11 s12 s13 s14 s15
        d0 d1 d2 d3 d4 d5 d6 d7 d8 d9 d10 d11 d12 d13 d14 d15 (Or.inr rfl) hsp hdp
      rw [hres]
      rw [v2Format_ipv6_data UDPv6 sp dp
        s0 s1 s2 s3 s4 s5 s6 s7 s8 s9 s10 s11 s12 s13 s14 s15
        d0 d1 d2 d3 d4 d5 d6 d7 d8 d9 d10 d11 d12 d13 d14 d15 (by decide) (by decide)]
      rfl
  · intro h hcmd htp hsl hsb hdl hdb hsp hdp
    refine ⟨?_, ipEqual_mapped _ hsl, ipEqual_mapped _ hdl⟩
    rw [Read_v1Format_tcp4 h htp hsl hsb hdl hdb hsp hdp]
    cases h
    simp only at hcmd htp
    subst hcmd
    subst htp
    rfl

/-- Counterexample to claim C1 as stated: the v1 header with command LOCAL and
transport UNSPEC — exactly the header the spec itself prescribes for UNKNOWN
lines — formats to `PROXY UNKNOWN <nil> <nil> 0 0\r\n`, and re-parsing that
line yields command PROXY, not LOCAL: parse(write(H)) ≠ H. -/
theorem C1_counterexample :
    (Read ⟨v1Format { command := LOCAL, transportProtocol := UNSPEC }, 0⟩).1 =
      .ok (.v1 { command := PROXY, transportProtocol := UNSPEC }) ∧
    PROXY ≠ LOCAL := by
  exact ⟨by rfl, by decide⟩

/-- Witness for C1 at a concrete TCP4 header: both the v2 and the v1 round-trip
clauses of the amended claim evaluate at 10.0.0.1:8080 → 192.168.0.1:443. -/
theorem C1_witness :
    ((({ command := PROXY, transportProtocol := TCPv4, sourceAddress := [10, 0, 0, 1],
         destinationAddress := [192, 168, 0, 1], sourcePort := 8080,
         destinationPort := 443 } : V1Header).command = PROXY) ∧
      Read ⟨v2Format { hdr := { command := PROXY, transportProtocol := TCPv4,
                                sourceAddress := [10, 0, 0, 1],
                                destinationAddress := [192, 168, 0, 1],
                                sourcePort := 8080, destinationPort := 443 } }, 0⟩ =
        (.ok (.v2 { hdr := { command := PROXY, transportProtocol := TCPv4,
                             sourceAddress := [10, 0, 0, 1],
                             destinationAddress := [192, 168, 0, 1],
                             sourcePort := 8080, destinationPort := 443 } }),
         ⟨v2Format { hdr := { command := PROXY, transportProtocol := TCPv4,
                              sourceAddress := [10, 0, 0, 1],
                              destinationAddress := [192, 168, 0, 1],
                              sourcePort := 8080, destinationPort := 443 } },
          (v2Format { hdr := { command := PROXY, transportProtocol := TCPv4,
                               sourceAddress := [10, 0, 0, 1],
                               destinationAddress := [192, 168, 0, 1],
                               sourcePort := 8080, destinationPort := 443 } }).length⟩)) ∧
    (Read ⟨v1Format { command := PROXY, transportProtocol := TCPv4,
                      sourceAddress := [10, 0, 0, 1],
                      destinationAddress := [192, 168, 0, 1],
                      sourcePort := 8080, destinationPort := 443 }, 0⟩ =
        (.ok (.v1 { command := PROXY, transportProtocol := TCPv4,
                    sourceAddress := v4InV6Prefix ++ [10, 0, 0, 1],
                    destinationAddress := v4InV6Prefix ++ [192, 168, 0, 1],
                    sourcePort := 8080, destinationPort := 443 }),
         ⟨v1Format { command := PROXY, transportProtocol := TCPv4,
                     sourceAddress := [10, 0, 0, 1],
                     destinationAddress := [192, 168, 0, 1],
                     sourcePort := 8080, destinationPort := 443 },
          (v1Format { command := PROXY, transportProtocol := TCPv4,
                      sourceAddress := [10, 0, 0, 1],
                      destinationAddress := [192, 168, 0, 1],
                      sourcePort := 8080, destinationPort := 443 }).length⟩) ∧
      ipEqual (v4InV6Prefix ++ [10, 0, 0, 1]) [10, 0, 0, 1] = true ∧
      ipEqual (v4InV6Prefix ++ [192, 168, 0, 1]) [192, 168, 0, 1] = true) := by
  refine ⟨⟨rfl, ?_⟩, ?_⟩
  · exact C1_roundtrip_amended.2.1
      { command := PROXY, transportProtocol := TCPv4, sourceAddress := [10, 0, 0, 1],
        destinationAddress := [192, 168, 0, 1], sourcePort := 8080, destinationPort := 443 }
      rfl (Or.inl rfl) (by decide) (by decide) (by decide) (by decide)
  · exact C1_roundtrip_amended.2.2
      { command := PROXY, transportProtocol := TCPv4, sourceAddress := [10, 0, 0, 1],
        destinationAddress := [192, 168, 0, 1], sourcePort := 8080, destinationPort := 443 }
      rfl rfl (by decide) (by decide) (by decide) (by decide) (by decide) (by decide)

end Proxyproto
